import Mathlib

/-!
# Track-panel hit testing and the envelope handle

A shallow embedding of `WaveTrack::DetailedHitTest` (WaveTrackUI.cpp) and of
`EnvelopeHandle` (EnvelopeHandle.cpp).

Conventions of the embedding

* C++ `int` is `Int` (pixel coordinates stay far inside the 32-bit range);
  `/` and `%` on `int` are `Int.tdiv` and `Int.tmod` (truncation toward zero,
  remainder with the sign of the dividend).
* `float` and `double` are exact rationals; `(int)x` is truncation toward zero.
* A pointer is an `Option`; `NULL` is `none`.
* Undefined behaviour that the code can reach (remainder by zero, dereference
  of a null editor, a bad downcast, conversion of a non-finite quotient) is an
  explicit `Except.error`.
* Functions of other translation units (cutline, time-shift and sample hit
  tests, `GetWaveYPos`, `LINEAR_TO_DB`, the editor's `MouseEvent`) are
  parameters collected in `Collaborators`.
* Calls that change the document (`PushState`, `RollbackState`) and calls on
  editors are recorded, in order, in a trace.
-/

set_option autoImplicit false

namespace Audacity

/-! ## Data model -/

/-- Cursor objects. `disabledCursor` and `envelopeCursor` are the two static
cursors of `EnvelopeHandle::HitPreview`; every other cursor is `other n`. -/
inductive Cursor where
  | disabledCursor
  | envelopeCursor
  | other (id : Nat)
  deriving DecidableEq

/-- Handle objects a hit test can hand out. `EnvelopeInstance` is the object
returned by `EnvelopeHandle::Instance()`. -/
inductive UIHandle where
  | EnvelopeInstance
  | other (id : Nat)
  deriving DecidableEq

/-- Modelled from the spec: the tool-mode enumeration of ToolsToolBar.h
(selection, envelope, draw, zoom, time-shift, multi-tool), which is not among
the sources. -/
inductive Tool where
  | selectTool
  | envelopeTool
  | drawTool
  | zoomTool
  | slideTool
  | multiTool
  deriving DecidableEq

/-- Modelled from the spec: the display mode of a wave track, "waveform" or
the alternative rendering (spectrogram); the enumeration lives in WaveTrack.h,
which is not among the sources. -/
inductive Display where
  | Waveform
  | Spectrum
  deriving DecidableEq

/-- Modelled from the spec: `HitTestPreview` of HitTestResult.h, a status
message and a cursor pointer, both empty by default. -/
structure HitTestPreview where
  message : String := ""
  cursor : Option Cursor := none
  deriving DecidableEq

/-- Modelled from the spec: `HitTestResult` of HitTestResult.h, a preview and
a handle pointer; the default value `{}` is the empty result. -/
structure HitTestResult where
  preview : HitTestPreview := {}
  handle : Option UIHandle := none
  deriving DecidableEq

/-- The fields of `wxMouseEvent` the code reads. -/
structure MouseEvent where
  m_x : Int
  m_y : Int
  CmdDown : Bool

/-- The type `wxRect`. -/
structure Rect where
  x : Int
  y : Int
  width : Int
  height : Int

/-- An envelope, seen through its query `GetValue(time)`. -/
structure Envelope where
  id : Nat
  GetValue : ℚ → ℚ

/-- The part of `ViewInfo` that is read: `dBr` and `PositionToTime`. -/
structure ViewInfo where
  dBr : ℚ
  PositionToTime : Int → Int → ℚ

/-- The project as far as it is read: `IsAudioActive()`, `GetViewInfo()` and
the tools toolbar's `GetMessageForTool`. -/
structure Project where
  IsAudioActive : Bool
  viewInfo : ViewInfo
  GetMessageForTool : Tool → String

/-- What the code asks of one wave channel. -/
structure WaveChannel where
  GetDisplay : Display
  GetEnvelopeAtX : Int → Option Envelope
  isLinear : Bool
  dBRange : ℚ
  zoomMin : ℚ
  zoomMax : ℚ

/-- A wave track: a channel and its link partner (`GetLink()`, wave or null). -/
structure WaveTrack extends WaveChannel where
  GetLink : Option WaveChannel

/-- What the code asks of a time track. -/
structure TimeTrack where
  GetEnvelope : Option Envelope
  GetDisplayLog : Bool
  GetRangeLower : ℚ
  GetRangeUpper : ℚ

/-- A track, by `GetKind()`: `Track::Wave`, `Track::Time` or any other kind. -/
inductive Track where
  | Wave (wt : WaveTrack)
  | Time (tt : TimeTrack)
  | Other (kind : Nat)

/-- The type `TrackPanelMouseEvent`: the raw event, the cell's rectangle and
the cell. -/
structure TrackPanelMouseEvent where
  event : MouseEvent
  rect : Rect
  pCell : Track

/-- An `EnvelopeEditor`, as constructed: the envelope it is bound to and its
`mirrored` flag. -/
structure EnvelopeEditor where
  envelope : Envelope
  mirrored : Bool

/-- The arguments of one `EnvelopeEditor::MouseEvent` call. -/
structure Forwarded where
  editor : EnvelopeEditor
  event : MouseEvent
  rect : Rect
  viewInfo : ViewInfo
  dB : Bool
  dBRange : ℚ
  zoomMin : ℚ
  zoomMax : ℚ

/-- Observable calls, recorded in order (newest last). -/
inductive Effect where
  | PushState (desc : String) (shortDesc : String)
  | RollbackState
  | Construct (editor : EnvelopeEditor)
  | MouseEvent (call : Forwarded)

/-- Undefined behaviour the code can reach. -/
inductive Fault where
  | divisionByZero
  | nullDereference
  | badCast
  | nonFiniteToInt
  deriving DecidableEq

/-- The data members of `EnvelopeHandle`: the bounds captured by `Click`
(`mLog`, `mLower`, `mUpper`, `mdBRange`), the rectangle and the two editors. -/
structure EnvelopeHandle where
  mLog : Bool
  mLower : ℚ
  mUpper : ℚ
  mdBRange : ℚ
  mRect : Rect
  mEnvelopeEditor : Option EnvelopeEditor
  mEnvelopeEditorRight : Option EnvelopeEditor

/-- The handle together with the trace of calls made so far. -/
structure State where
  handle : EnvelopeHandle
  trace : List Effect

/-- Modelled from the spec: the refresh directive `UIHandle::Result`, a set of
bit flags declared in RefreshCode.h (not among the sources); the two flags the
envelope handle uses are kept as two independent bits. -/
structure Result where
  refreshCell : Bool := false
  cancelled : Bool := false
  deriving DecidableEq

namespace RefreshCode

/-- No flag set. -/
def RefreshNone : Result := {}

/-- The flag `Cancelled`. -/
def Cancelled : Result := { cancelled := true }

/-- The flag `RefreshCell`. -/
def RefreshCell : Result := { refreshCell := true }

/-- Bitwise or of two result codes. -/
def or (a b : Result) : Result :=
  { refreshCell := a.refreshCell || b.refreshCell
    cancelled := a.cancelled || b.cancelled }

end RefreshCode

/-- Functions defined in other translation units. -/
structure Collaborators where
  CutlineHitTest : MouseEvent → Rect → Project → WaveTrack → HitTestResult
  TimeShiftHitAnywhere : Project → HitTestResult
  TimeShiftHitTest : MouseEvent → Rect → Project → HitTestResult
  SampleHitTest : MouseEvent → Rect → Project → WaveTrack → HitTestResult
  SampleHitAnywhere : MouseEvent → Project → HitTestResult
  GetWaveYPos : ℚ → ℚ → ℚ → Int → Bool → Bool → ℚ → Bool → Int
  LINEAR_TO_DB : ℚ → ℚ
  EditorMouseEvent : List Effect → Forwarded → Bool

/-- The conversion `(int)x` of a finite value: truncation toward zero. -/
def truncToInt (q : ℚ) : Int :=
  Int.tdiv q.num q.den

/-- The local `ContourSpacing` of `HitEnvelope`:
`(int)(rect.height / (2 * (zoomMax - zoomMin)))`. -/
def ContourSpacing (rect : Rect) (zoomMin zoomMax : ℚ) : Int :=
  truncToInt ((rect.height : ℚ) / (2 * (zoomMax - zoomMin)))

/-- The out-parameters of `GetTimeTrackData`. -/
structure TimeTrackData where
  dBRange : ℚ
  dB : Bool
  zoomMin : ℚ
  zoomMax : ℚ

/-- The function `GetTimeTrackData` of the anonymous namespace. -/
def GetTimeTrackData (c : Collaborators) (project : Project) (tt : TimeTrack) :
    TimeTrackData :=
  let viewInfo := project.viewInfo
  let dBRange := viewInfo.dBr
  let dB := tt.GetDisplayLog
  let zoomMin := tt.GetRangeLower
  let zoomMax := tt.GetRangeUpper
  if dB then
    { dBRange := dBRange
      dB := dB
      zoomMin := c.LINEAR_TO_DB (max (1 / 10 ^ 7) dBRange) / dBRange + 1
      zoomMax := c.LINEAR_TO_DB (max (1 / 10 ^ 7) zoomMax) / dBRange + 1 }
  else
    { dBRange := dBRange, dB := dB, zoomMin := zoomMin, zoomMax := zoomMax }

/-! ## EnvelopeHandle: hit tests -/

namespace EnvelopeHandle

/-- The function `EnvelopeHandle::HitPreview`. -/
def HitPreview (pProject : Project) (unsafeFlag : Bool) : HitTestPreview :=
  { message := pProject.GetMessageForTool Tool.envelopeTool
    cursor := if unsafeFlag then some Cursor.disabledCursor
              else some Cursor.envelopeCursor }

/-- The function `EnvelopeHandle::HitAnywhere`. -/
def HitAnywhere (pProject : Project) : HitTestResult :=
  let unsafeFlag := pProject.IsAudioActive
  { preview := HitPreview pProject unsafeFlag
    handle := if unsafeFlag then none else some UIHandle.EnvelopeInstance }

/-- The function `EnvelopeHandle::HitEnvelope`. -/
def HitEnvelope (c : Collaborators) (event : MouseEvent) (rect : Rect)
    (pProject : Project) (envelope : Envelope) (zoomMin zoomMax : ℚ)
    (dB : Bool) (dBRange : ℚ) : Except Fault HitTestResult :=
  let viewInfo := pProject.viewInfo
  let envValue := envelope.GetValue (viewInfo.PositionToTime event.m_x rect.x)
  let yValue0 :=
    c.GetWaveYPos envValue zoomMin zoomMax rect.height dB true dBRange false + rect.y
  let ctr :=
    c.GetWaveYPos 0 zoomMin zoomMax rect.height dB true dBRange false + rect.y
  let yMouse : Int := |ctr - event.m_y|
  let yValue : Int := |ctr - yValue0|
  let yMisalign : Int := 2
  let yTolerance : Int := 5
  if 2 * (zoomMax - zoomMin) = 0 then Except.error Fault.nonFiniteToInt
  else
    let ContourSpacing : Int := Audacity.ContourSpacing rect zoomMin zoomMax
    let MaxContours : Int := 2
    let yDisplace := yValue - yMisalign - yMouse + Int.tdiv ContourSpacing 2
    if yDisplace > MaxContours * ContourSpacing then Except.ok {}
    else if ContourSpacing = 0 then Except.error Fault.divisionByZero
    else
      let distance : Int :=
        |Int.tmod yDisplace ContourSpacing - Int.tdiv ContourSpacing 2|
      if distance ≥ yTolerance then Except.ok {}
      else Except.ok (HitAnywhere pProject)

/-- The function `EnvelopeHandle::WaveTrackHitTest`. -/
def WaveTrackHitTest (c : Collaborators) (event : MouseEvent) (rect : Rect)
    (pProject : Project) (wt : WaveTrack) : Except Fault HitTestResult :=
  match wt.GetEnvelopeAtX event.m_x with
  | none => Except.ok {}
  | some envelope =>
    if wt.GetDisplay ≠ Display.Waveform then Except.ok {}
    else
      let dB := !wt.isLinear
      HitEnvelope c event rect pProject envelope wt.zoomMin wt.zoomMax dB wt.dBRange

/-- The function `EnvelopeHandle::TimeTrackHitTest`. -/
def TimeTrackHitTest (c : Collaborators) (event : MouseEvent) (rect : Rect)
    (pProject : Project) (tt : TimeTrack) : Except Fault HitTestResult :=
  match tt.GetEnvelope with
  | none => Except.ok {}
  | some envelope =>
    let d := GetTimeTrackData c pProject tt
    HitEnvelope c event rect pProject envelope d.zoomMin d.zoomMax d.dB d.dBRange

/-! ## EnvelopeHandle: the gesture -/

/-- The function `EnvelopeHandle::ForwardEventToEnvelopes`. The primary editor
is dereferenced without a test; the right editor only when it is non-null. -/
def ForwardEventToEnvelopes (c : Collaborators) (event : MouseEvent)
    (viewInfo : ViewInfo) (s : State) : Except Fault (Bool × State) :=
  let h := s.handle
  match h.mEnvelopeEditor with
  | none => Except.error Fault.nullDereference
  | some editor =>
    let call : Forwarded :=
      { editor := editor, event := event, rect := h.mRect, viewInfo := viewInfo
        dB := h.mLog, dBRange := h.mdBRange, zoomMin := h.mLower, zoomMax := h.mUpper }
    let needUpdate := c.EditorMouseEvent s.trace call
    let s1 : State := { s with trace := s.trace ++ [Effect.MouseEvent call] }
    match h.mEnvelopeEditorRight with
    | none => Except.ok (needUpdate, s1)
    | some right =>
      let callRight : Forwarded :=
        { editor := right, event := event, rect := h.mRect, viewInfo := viewInfo
          dB := h.mLog, dBRange := h.mdBRange, zoomMin := h.mLower, zoomMax := h.mUpper }
      let changedRight := c.EditorMouseEvent s1.trace callRight
      Except.ok (needUpdate || changedRight,
        { s1 with trace := s1.trace ++ [Effect.MouseEvent callRight] })

/-- The part of `EnvelopeHandle::Click` between the audio test and the
assignment of `mRect`: the dispatch on the track kind. `none` stands for the
early `return Cancelled`; otherwise the state after the editors are set. -/
def ClickPrepare (c : Collaborators) (evt : TrackPanelMouseEvent)
    (pProject : Project) (s : State) : Option State :=
  let event := evt.event
  match evt.pCell with
  | Track.Wave wt =>
    if wt.GetDisplay ≠ Display.Waveform then none
    else
      match wt.GetEnvelopeAtX event.m_x with
      | none => none
      | some clickedEnvelope =>
        let editor : EnvelopeEditor := { envelope := clickedEnvelope, mirrored := true }
        let s1 : State :=
          { handle :=
              { s.handle with
                mLog := !wt.isLinear
                mLower := wt.zoomMin
                mUpper := wt.zoomMax
                mdBRange := wt.dBRange
                mEnvelopeEditor := some editor
                mEnvelopeEditorRight := none }
            trace := s.trace ++ [Effect.Construct editor] }
        match wt.GetLink with
        | none => some s1
        | some partner =>
          match partner.GetEnvelopeAtX event.m_x with
          | none => some s1
          | some partnerEnvelope =>
            let right : EnvelopeEditor := { envelope := partnerEnvelope, mirrored := true }
            some { handle := { s1.handle with mEnvelopeEditorRight := some right }
                   trace := s1.trace ++ [Effect.Construct right] }
  | Track.Time tt =>
    match tt.GetEnvelope with
    | none => none
    | some clickedEnvelope =>
      let d := GetTimeTrackData c pProject tt
      let editor : EnvelopeEditor := { envelope := clickedEnvelope, mirrored := false }
      some { handle :=
               { s.handle with
                 mdBRange := d.dBRange
                 mLog := d.dB
                 mLower := d.zoomMin
                 mUpper := d.zoomMax
                 mEnvelopeEditor := some editor
                 mEnvelopeEditorRight := none }
             trace := s.trace ++ [Effect.Construct editor] }
  | Track.Other _ => none

/-- The function `EnvelopeHandle::Click`. -/
def Click (c : Collaborators) (evt : TrackPanelMouseEvent) (pProject : Project)
    (s : State) : Except Fault (Result × State) :=
  let event := evt.event
  let viewInfo := pProject.viewInfo
  let unsafeFlag := pProject.IsAudioActive
  if unsafeFlag then Except.ok (RefreshCode.Cancelled, s)
  else
    match ClickPrepare c evt pProject s with
    | none => Except.ok (RefreshCode.Cancelled, s)
    | some s1 =>
      let s2 : State := { s1 with handle := { s1.handle with mRect := evt.rect } }
      match ForwardEventToEnvelopes c event viewInfo s2 with
      | Except.error f => Except.error f
      | Except.ok (needUpdate, s3) =>
        Except.ok (if needUpdate then RefreshCode.RefreshCell
                   else RefreshCode.RefreshNone, s3)

/-- The function `EnvelopeHandle::Cancel`. -/
def Cancel (s : State) : Result × State :=
  (RefreshCode.RefreshCell,
    { handle := { s.handle with mEnvelopeEditor := none, mEnvelopeEditorRight := none }
      trace := s.trace ++ [Effect.RollbackState] })

/-- The function `EnvelopeHandle::Drag`. -/
def Drag (c : Collaborators) (evt : TrackPanelMouseEvent) (pProject : Project)
    (s : State) : Except Fault (Result × State) :=
  let event := evt.event
  let viewInfo := pProject.viewInfo
  let unsafeFlag := pProject.IsAudioActive
  if unsafeFlag then
    Except.ok (RefreshCode.or RefreshCode.RefreshCell RefreshCode.Cancelled, (Cancel s).2)
  else
    match ForwardEventToEnvelopes c event viewInfo s with
    | Except.error f => Except.error f
    | Except.ok (needUpdate, s1) =>
      Except.ok (if needUpdate then RefreshCode.RefreshCell
                 else RefreshCode.RefreshNone, s1)

/-- The function `EnvelopeHandle::Release`. -/
def Release (c : Collaborators) (evt : TrackPanelMouseEvent) (pProject : Project)
    (s : State) : Except Fault (Result × State) :=
  let event := evt.event
  let viewInfo := pProject.viewInfo
  let unsafeFlag := pProject.IsAudioActive
  if unsafeFlag then Except.ok (Cancel s)
  else
    match ForwardEventToEnvelopes c event viewInfo s with
    | Except.error f => Except.error f
    | Except.ok (needUpdate, s1) =>
      let s2 : State :=
        { handle := { s1.handle with mEnvelopeEditor := none, mEnvelopeEditorRight := none }
          trace := s1.trace ++ [Effect.PushState "Adjusted envelope." "Envelope"] }
      Except.ok (if needUpdate then RefreshCode.RefreshCell
                 else RefreshCode.RefreshNone, s2)

end EnvelopeHandle

/-! ## WaveTrack::DetailedHitTest -/

/-- The function `WaveTrack::DetailedHitTest`; `this` is the receiver and
`event.pCell` is downcast to a wave track as the code does. -/
def WaveTrack.DetailedHitTest (c : Collaborators) (this : WaveTrack)
    (event : TrackPanelMouseEvent) (pProject : Project) (currentTool : Tool)
    (bMultiTool : Bool) : Except Fault HitTestResult :=
  match event.pCell with
  | Track.Wave wavetrack =>
    let isWaveform := decide (wavetrack.GetDisplay = Display.Waveform)
    if bMultiTool && event.event.CmdDown then
      Except.ok (c.TimeShiftHitAnywhere pProject)
    else if isWaveform then
      let result := c.CutlineHitTest event.event event.rect pProject this
      if result.preview.cursor ≠ none then Except.ok result
      else if bMultiTool then
        match EnvelopeHandle.WaveTrackHitTest c event.event event.rect pProject this with
        | Except.error f => Except.error f
        | Except.ok result =>
          if result.preview.cursor ≠ none then Except.ok result
          else
            let result := c.TimeShiftHitTest event.event event.rect pProject
            if result.preview.cursor ≠ none then Except.ok result
            else
              let result := c.SampleHitTest event.event event.rect pProject this
              Except.ok result
      else
        match currentTool with
        | Tool.envelopeTool => Except.ok (EnvelopeHandle.HitAnywhere pProject)
        | Tool.drawTool => Except.ok (c.SampleHitAnywhere event.event pProject)
        | _ => Except.ok {}
    else Except.ok {}
  | _ => Except.error Fault.badCast

/-- Reference for the multi-tool arbitration, following the spec's words: try
the candidates in order and take the first non-empty one (the first whose
cursor is not null); `none` when every candidate is empty. -/
def firstMatch (candidates : List HitTestResult) : Option HitTestResult :=
  candidates.find? (fun r => decide (r.preview.cursor ≠ none))

/-- The rejection condition of `Click`, following the spec's words: edits are
forbidden (audio active), or the track is a wave track that is not in
waveform display or has no envelope under the event's X, or it is a time
track without envelope, or it is a track of any other kind. -/
def ClickRejects (evt : TrackPanelMouseEvent) (pProject : Project) : Bool :=
  pProject.IsAudioActive ||
    match evt.pCell with
    | Track.Wave wt =>
      decide (wt.GetDisplay ≠ Display.Waveform) || (wt.GetEnvelopeAtX evt.event.m_x).isNone
    | Track.Time tt => tt.GetEnvelope.isNone
    | Track.Other _ => true

/-! ## Sequences of calls on the handle -/

/-- One call the panel makes on the handle after the click of a gesture. -/
inductive Call where
  | Drag (evt : TrackPanelMouseEvent) (pProject : Project)
  | Release (evt : TrackPanelMouseEvent) (pProject : Project)
  | Cancel

/-- Execute one call on the handle. -/
def step (c : Collaborators) : Call → State → Except Fault (Result × State)
  | Call.Drag evt pProject, s => EnvelopeHandle.Drag c evt pProject s
  | Call.Release evt pProject, s => EnvelopeHandle.Release c evt pProject s
  | Call.Cancel, s => Except.ok (EnvelopeHandle.Cancel s)

/-- Execute the calls in order; the first fault ends the run. -/
def run (c : Collaborators) : List Call → State → Except Fault State
  | [], s => Except.ok s
  | call :: rest, s =>
    match step c call s with
    | Except.error f => Except.error f
    | Except.ok (_, s1) => run c rest s1

/-- No `Drag` and no `Release` occurs in the list. -/
def OnlyCancels : List Call → Bool
  | [] => true
  | Call.Cancel :: rest => OnlyCancels rest
  | _ :: _ => false

/-- The dispatch discipline: no `Drag` or `Release` is delivered after a
result containing `Cancelled`, after a `Release` or after a `Cancel`. The
results are those the calls produce when run from `s`. -/
def Disciplined (c : Collaborators) : List Call → State → Bool
  | [], _ => true
  | Call.Cancel :: rest, _ => OnlyCancels rest
  | Call.Release _ _ :: rest, _ => OnlyCancels rest
  | Call.Drag evt pProject :: rest, s =>
    match EnvelopeHandle.Drag c evt pProject s with
    | Except.error _ => true
    | Except.ok (r, s1) => if r.cancelled then OnlyCancels rest else Disciplined c rest s1

/-- The `PushState` calls of a trace, each as (description, category). -/
def pushStates : List Effect → List (String × String)
  | [] => []
  | Effect.PushState desc shortDesc :: rest => (desc, shortDesc) :: pushStates rest
  | _ :: rest => pushStates rest

/-- The number of `RollbackState` calls of a trace. -/
def rollbacks : List Effect → Nat
  | [] => 0
  | Effect.RollbackState :: rest => rollbacks rest + 1
  | _ :: rest => rollbacks rest

/-- The `EnvelopeEditor::MouseEvent` calls of a trace. -/
def forwardedCalls : List Effect → List Forwarded
  | [] => []
  | Effect.MouseEvent call :: rest => call :: forwardedCalls rest
  | _ :: rest => forwardedCalls rest

/-- The five snapshot fields of `h1` equal those of `h`. -/
def SameSnapshot (h h1 : EnvelopeHandle) : Prop :=
  h1.mLog = h.mLog ∧ h1.mLower = h.mLower ∧ h1.mUpper = h.mUpper
    ∧ h1.mdBRange = h.mdBRange ∧ h1.mRect = h.mRect

/-- The call carries the rectangle and the four bounds stored in `h`. -/
def UsesSnapshot (h : EnvelopeHandle) (call : Forwarded) : Prop :=
  call.rect = h.mRect ∧ call.dB = h.mLog ∧ call.dBRange = h.mdBRange
    ∧ call.zoomMin = h.mLower ∧ call.zoomMax = h.mUpper

/-- The arguments `ForwardEventToEnvelopes` passes to `editor`. -/
def forwardedTo (h : EnvelopeHandle) (editor : EnvelopeEditor) (event : MouseEvent)
    (viewInfo : ViewInfo) : Forwarded :=
  { editor := editor, event := event, rect := h.mRect, viewInfo := viewInfo
    dB := h.mLog, dBRange := h.mdBRange, zoomMin := h.mLower, zoomMax := h.mUpper }

/-- The editor calls of one forwarded event, following the spec's words: the
event goes to the primary editor and then, when a right editor exists, to the
right editor as well, each time with the handle's rectangle and bounds. -/
def forwardEffects (h : EnvelopeHandle) (primary : EnvelopeEditor) (event : MouseEvent)
    (viewInfo : ViewInfo) : List Effect :=
  Effect.MouseEvent (forwardedTo h primary event viewInfo) ::
    (match h.mEnvelopeEditorRight with
     | none => []
     | some right => [Effect.MouseEvent (forwardedTo h right event viewInfo)])

/-- Whether a redraw is due after one forwarded event, following the spec's
words: the primary editor reports a change, or the right editor exists and
reports a change (it is asked after the primary editor's call). -/
def forwardChanged (c : Collaborators) (trace : List Effect) (h : EnvelopeHandle)
    (primary : EnvelopeEditor) (event : MouseEvent) (viewInfo : ViewInfo) : Bool :=
  c.EditorMouseEvent trace (forwardedTo h primary event viewInfo) ||
    (match h.mEnvelopeEditorRight with
     | none => false
     | some right =>
       c.EditorMouseEvent (trace ++ [Effect.MouseEvent (forwardedTo h primary event viewInfo)])
         (forwardedTo h right event viewInfo))

/-- What `Click` is expected to capture, following the spec's words: the
screen rectangle of the event's cell and the display-bounds snapshot (log
flag, lower, upper, dB range) taken from the wave track, or for a time track
from `GetTimeTrackData`. -/
def CapturedByClick (c : Collaborators) (evt : TrackPanelMouseEvent) (pProject : Project)
    (h : EnvelopeHandle) : Prop :=
  h.mRect = evt.rect ∧
    match evt.pCell with
    | Track.Wave wt =>
      h.mLog = (!wt.isLinear) ∧ h.mLower = wt.zoomMin ∧ h.mUpper = wt.zoomMax
        ∧ h.mdBRange = wt.dBRange
    | Track.Time tt =>
      h.mLog = (GetTimeTrackData c pProject tt).dB
        ∧ h.mLower = (GetTimeTrackData c pProject tt).zoomMin
        ∧ h.mUpper = (GetTimeTrackData c pProject tt).zoomMax
        ∧ h.mdBRange = (GetTimeTrackData c pProject tt).dBRange
    | Track.Other _ => False

/-- The editor calls the events after the click are expected to cause,
following the spec's words: each drag forwards its event to the editors, the
release forwards the final event, always with the rectangle and bounds of
the handle `h`; a drag or release that arrives while audio is active forwards
nothing and ends the gesture, as does `Cancel`. -/
def gestureForwards (h : EnvelopeHandle) (primary : EnvelopeEditor) :
    List Call → List Forwarded
  | [] => []
  | Call.Drag evt pProject :: rest =>
    if pProject.IsAudioActive then []
    else forwardedCalls (forwardEffects h primary evt.event pProject.viewInfo)
      ++ gestureForwards h primary rest
  | Call.Release evt pProject :: _ =>
    if pProject.IsAudioActive then []
    else forwardedCalls (forwardEffects h primary evt.event pProject.viewInfo)
  | Call.Cancel :: _ => []

/-! ## Concrete inputs used by the examples -/

/-- A view that maps a pixel column to the time `position - origin`. -/
def demoViewInfo : ViewInfo :=
  { dBr := 60, PositionToTime := fun position origin => ((position - origin : Int) : ℚ) }

/-- A project with no audio running. -/
def demoProject : Project :=
  { IsAudioActive := false, viewInfo := demoViewInfo, GetMessageForTool := fun _ => "tool" }

/-- A project that is playing or recording. -/
def busyProject : Project :=
  { IsAudioActive := true, viewInfo := demoViewInfo, GetMessageForTool := fun _ => "tool" }

/-- An envelope of constant value 1. -/
def demoEnvelope : Envelope :=
  { id := 0, GetValue := fun _ => 1 }

/-- A second envelope, for the partner channel. -/
def partnerEnvelope : Envelope :=
  { id := 1, GetValue := fun _ => 1 }

/-- A linear waveform channel showing -2 .. 2 with an envelope everywhere. -/
def demoChannel : WaveChannel :=
  { GetDisplay := Display.Waveform, GetEnvelopeAtX := fun _ => some demoEnvelope
    isLinear := true, dBRange := 60, zoomMin := -2, zoomMax := 2 }

/-- A mono waveform track. -/
def demoTrack : WaveTrack :=
  { toWaveChannel := demoChannel, GetLink := none }

/-- The same track in spectrogram display. -/
def spectrumTrack : WaveTrack :=
  { toWaveChannel := { demoChannel with GetDisplay := Display.Spectrum }, GetLink := none }

/-- A non-empty result of some other handle. -/
def otherHit (n : Nat) : HitTestResult :=
  { preview := { message := "hit", cursor := some (Cursor.other n) }
    handle := some (UIHandle.other n) }

/-- Collaborators whose hit tests all miss; the centre line is drawn at row
100 and every other value at row 0. -/
def demoCollaborators : Collaborators :=
  { CutlineHitTest := fun _ _ _ _ => {}
    TimeShiftHitAnywhere := fun _ => otherHit 2
    TimeShiftHitTest := fun _ _ _ => {}
    SampleHitTest := fun _ _ _ _ => {}
    SampleHitAnywhere := fun _ _ => otherHit 3
    GetWaveYPos := fun value _ _ _ _ _ _ _ => if value = 0 then 100 else 0
    LINEAR_TO_DB := fun x => x
    EditorMouseEvent := fun _ _ => true }

/-- Collaborators as above, but every cutline test hits. -/
def cutlineCollaborators : Collaborators :=
  { demoCollaborators with CutlineHitTest := fun _ _ _ _ => otherHit 1 }

/-- Collaborators as above, but the time-shift grip and the sample test hit. -/
def gripCollaborators : Collaborators :=
  { demoCollaborators with
    TimeShiftHitTest := fun _ _ _ => otherHit 4
    SampleHitTest := fun _ _ _ _ => otherHit 5 }

/-- A handle in the middle of a gesture on a stereo pair. -/
def busyHandle : EnvelopeHandle :=
  { mLog := true, mLower := -1, mUpper := 1, mdBRange := 48
    mRect := { x := 5, y := 6, width := 7, height := 8 }
    mEnvelopeEditor := some { envelope := demoEnvelope, mirrored := true }
    mEnvelopeEditorRight := some { envelope := partnerEnvelope, mirrored := true } }

/-- A cell 300 wide and 200 high at the origin. -/
def demoRect : Rect :=
  { x := 0, y := 0, width := 300, height := 200 }

/-- A mouse event at pixel `(10, my)` over `track`. -/
def demoEvent (track : Track) (my : Int) (cmd : Bool) : TrackPanelMouseEvent :=
  { event := { m_x := 10, m_y := my, CmdDown := cmd }, rect := demoRect, pCell := track }

/-- A waveform track with no envelope under any pixel column. -/
def bareTrack : WaveTrack :=
  { toWaveChannel := { demoChannel with GetEnvelopeAtX := fun _ => none }, GetLink := none }

/-- A stereo waveform track whose partner has its own envelope. -/
def stereoTrack : WaveTrack :=
  { toWaveChannel := demoChannel
    GetLink := some { demoChannel with GetEnvelopeAtX := fun _ => some partnerEnvelope } }

/-- A cell only 3 pixels high. -/
def thinRect : Rect :=
  { x := 0, y := 0, width := 300, height := 3 }

/-- A handle that has never been clicked. -/
def idleHandle : EnvelopeHandle :=
  { mLog := false, mLower := 0, mUpper := 0, mdBRange := 0
    mRect := { x := 0, y := 0, width := 0, height := 0 }
    mEnvelopeEditor := none, mEnvelopeEditorRight := none }

/-- The state before the first gesture: idle handle, empty trace. -/
def idleState : State :=
  { handle := idleHandle, trace := [] }

/-- The state in the middle of a gesture on a stereo pair, empty trace. -/
def busyState : State :=
  { handle := busyHandle, trace := [] }

/-- A click on the stereo track, audio idle, from the idle state. -/
def clickEvent : TrackPanelMouseEvent :=
  demoEvent (Track.Wave stereoTrack) 2 false

/-- The state the handle is in after that click. -/
def clickedState : State :=
  match EnvelopeHandle.Click demoCollaborators clickEvent demoProject idleState with
  | Except.ok (_, s) => s
  | Except.error _ => idleState

/-- Two drags that arrive with another track and another rectangle, then a
release. -/
def commitCalls : List Call :=
  [Call.Drag (demoEvent (Track.Wave spectrumTrack) 40 false) demoProject,
   Call.Drag { event := { m_x := 7, m_y := 8, CmdDown := true }, rect := thinRect,
               pCell := Track.Other 3 } demoProject,
   Call.Release (demoEvent (Track.Wave spectrumTrack) 41 false) demoProject]

/-- A drag, a drag cancelled by audio starting, and a final `Cancel`. -/
def cancelCalls : List Call :=
  [Call.Drag (demoEvent (Track.Wave stereoTrack) 40 false) demoProject,
   Call.Drag (demoEvent (Track.Wave stereoTrack) 41 false) busyProject,
   Call.Cancel]

/-! ## Theorems -/

/-- C1: in multi-tool mode with the command modifier down, `DetailedHitTest`
returns exactly `TimeShiftHandle::HitAnywhere(project)`, for every tool, every
display mode and whatever the other hit tests answer. -/
theorem DetailedHitTest_cmd_override (c : Collaborators) (this wavetrack : WaveTrack)
    (event : TrackPanelMouseEvent) (pProject : Project) (currentTool : Tool)
    (bMultiTool : Bool) (hcell : event.pCell = Track.Wave wavetrack)
    (hmulti : bMultiTool = true) (hcmd : event.event.CmdDown = true) :
    WaveTrack.DetailedHitTest c this event pProject currentTool bMultiTool
      = Except.ok (c.TimeShiftHitAnywhere pProject) := by
  simp [WaveTrack.DetailedHitTest, hcell, hmulti, hcmd]

/-- Witness of C1: spectrogram display, draw tool, cutline test hitting. -/
theorem DetailedHitTest_cmd_override_witness :
    WaveTrack.DetailedHitTest cutlineCollaborators spectrumTrack
        (demoEvent (Track.Wave spectrumTrack) 0 true) demoProject Tool.drawTool true
      = Except.ok (otherHit 2) :=
  DetailedHitTest_cmd_override cutlineCollaborators spectrumTrack spectrumTrack
    (demoEvent (Track.Wave spectrumTrack) 0 true) demoProject Tool.drawTool true rfl rfl rfl

/-- C2: on a waveform track, when the command override does not apply, a
non-empty cutline hit is returned as it is, for every tool and in multi-tool
mode as well. -/
theorem DetailedHitTest_cutline_first (c : Collaborators) (this wavetrack : WaveTrack)
    (event : TrackPanelMouseEvent) (pProject : Project) (currentTool : Tool)
    (bMultiTool : Bool) (hcell : event.pCell = Track.Wave wavetrack)
    (hdisplay : wavetrack.GetDisplay = Display.Waveform)
    (hover : ¬ (bMultiTool = true ∧ event.event.CmdDown = true))
    (hcut : (c.CutlineHitTest event.event event.rect pProject this).preview.cursor ≠ none) :
    WaveTrack.DetailedHitTest c this event pProject currentTool bMultiTool
      = Except.ok (c.CutlineHitTest event.event event.rect pProject this) := by
  have hover2 : (bMultiTool && event.event.CmdDown) = false := by
    cases bMultiTool <;> cases hc : event.event.CmdDown <;> simp_all
  simp [WaveTrack.DetailedHitTest, hcell, hdisplay, hover2, hcut]

/-- Witness of C2: multi-tool mode, grip and sample tests hitting as well. -/
theorem DetailedHitTest_cutline_first_witness :
    WaveTrack.DetailedHitTest
        { gripCollaborators with CutlineHitTest := fun _ _ _ _ => otherHit 1 } demoTrack
        (demoEvent (Track.Wave demoTrack) 0 false) demoProject Tool.envelopeTool true
      = Except.ok (otherHit 1) :=
  DetailedHitTest_cutline_first
    { gripCollaborators with CutlineHitTest := fun _ _ _ _ => otherHit 1 } demoTrack demoTrack
    (demoEvent (Track.Wave demoTrack) 0 false) demoProject Tool.envelopeTool true rfl rfl
    (by decide) (by decide)

/-- The result of `HitAnywhere` never has a null cursor. -/
theorem HitAnywhere_cursor_ne_none (pProject : Project) :
    (EnvelopeHandle.HitAnywhere pProject).preview.cursor ≠ none := by
  cases h : pProject.IsAudioActive <;>
    simp [EnvelopeHandle.HitAnywhere, EnvelopeHandle.HitPreview, h]

/-- The result of `HitAnywhere` is never the empty result. -/
theorem HitAnywhere_ne_empty (pProject : Project) :
    EnvelopeHandle.HitAnywhere pProject ≠ ({} : HitTestResult) := by
  intro h
  exact HitAnywhere_cursor_ne_none pProject (by rw [h])

/-- C3 as stated fails: with the envelope tool, single-tool mode and waveform
display, no result carrying the envelope handle comes back (a) while audio is
active, and (b) when the cutline test hits. -/
theorem DetailedHitTest_envelopeTool_counterexample :
    (¬ ∃ r, WaveTrack.DetailedHitTest demoCollaborators demoTrack
          (demoEvent (Track.Wave demoTrack) 0 false) busyProject Tool.envelopeTool false
            = Except.ok r
        ∧ r.preview.cursor ≠ none ∧ r.handle = some UIHandle.EnvelopeInstance)
    ∧ (¬ ∃ r, WaveTrack.DetailedHitTest cutlineCollaborators demoTrack
          (demoEvent (Track.Wave demoTrack) 0 false) demoProject Tool.envelopeTool false
            = Except.ok r
        ∧ r.preview.cursor ≠ none ∧ r.handle = some UIHandle.EnvelopeInstance) := by
  constructor
  · rintro ⟨r, hr, -, hh⟩
    have h0 : WaveTrack.DetailedHitTest demoCollaborators demoTrack
        (demoEvent (Track.Wave demoTrack) 0 false) busyProject Tool.envelopeTool false
          = Except.ok (EnvelopeHandle.HitAnywhere busyProject) := rfl
    rw [h0] at hr
    cases hr
    exact absurd hh (by decide)
  · rintro ⟨r, hr, -, hh⟩
    have h0 : WaveTrack.DetailedHitTest cutlineCollaborators demoTrack
        (demoEvent (Track.Wave demoTrack) 0 false) demoProject Tool.envelopeTool false
          = Except.ok (otherHit 1) := rfl
    rw [h0] at hr
    cases hr
    exact absurd hh (by decide)

/-- C3, amended: with the envelope tool, single-tool mode and waveform
display the result is never empty; it is the cutline result when the cutline
test hits and `EnvelopeHandle::HitAnywhere(project)` otherwise, and in the
latter case it carries the envelope handle exactly when audio is not active. -/
theorem DetailedHitTest_envelopeTool (c : Collaborators) (this wavetrack : WaveTrack)
    (event : TrackPanelMouseEvent) (pProject : Project)
    (hcell : event.pCell = Track.Wave wavetrack)
    (hdisplay : wavetrack.GetDisplay = Display.Waveform) :
    ∃ r, WaveTrack.DetailedHitTest c this event pProject Tool.envelopeTool false
          = Except.ok r
      ∧ r.preview.cursor ≠ none
      ∧ r = (if (c.CutlineHitTest event.event event.rect pProject this).preview.cursor ≠ none
             then c.CutlineHitTest event.event event.rect pProject this
             else EnvelopeHandle.HitAnywhere pProject)
      ∧ ((c.CutlineHitTest event.event event.rect pProject this).preview.cursor = none →
          (r.handle = some UIHandle.EnvelopeInstance ↔ pProject.IsAudioActive = false)) := by
  by_cases hcut : (c.CutlineHitTest event.event event.rect pProject this).preview.cursor = none
  · refine ⟨EnvelopeHandle.HitAnywhere pProject, ?_, HitAnywhere_cursor_ne_none pProject, ?_, ?_⟩
    · simp [WaveTrack.DetailedHitTest, hcell, hdisplay, hcut]
    · simp [hcut]
    · intro _
      cases h : pProject.IsAudioActive <;> simp [EnvelopeHandle.HitAnywhere, h]
  · refine ⟨c.CutlineHitTest event.event event.rect pProject this, ?_, hcut, ?_, ?_⟩
    · simp [WaveTrack.DetailedHitTest, hcell, hdisplay, hcut]
    · simp [hcut]
    · intro h
      exact absurd h hcut

/-- Witness of the amended C3: a click far from the envelope, audio idle. -/
theorem DetailedHitTest_envelopeTool_witness :
    ∃ r, WaveTrack.DetailedHitTest demoCollaborators demoTrack
          (demoEvent (Track.Wave demoTrack) 9000 false) demoProject Tool.envelopeTool false
          = Except.ok r
      ∧ r.preview.cursor ≠ none
      ∧ r = (if (demoCollaborators.CutlineHitTest
                  (demoEvent (Track.Wave demoTrack) 9000 false).event
                  (demoEvent (Track.Wave demoTrack) 9000 false).rect demoProject
                  demoTrack).preview.cursor ≠ none
             then demoCollaborators.CutlineHitTest
                  (demoEvent (Track.Wave demoTrack) 9000 false).event
                  (demoEvent (Track.Wave demoTrack) 9000 false).rect demoProject demoTrack
             else EnvelopeHandle.HitAnywhere demoProject)
      ∧ ((demoCollaborators.CutlineHitTest
              (demoEvent (Track.Wave demoTrack) 9000 false).event
              (demoEvent (Track.Wave demoTrack) 9000 false).rect demoProject
              demoTrack).preview.cursor = none →
          (r.handle = some UIHandle.EnvelopeInstance ↔ demoProject.IsAudioActive = false)) :=
  DetailedHitTest_envelopeTool demoCollaborators demoTrack demoTrack
    (demoEvent (Track.Wave demoTrack) 9000 false) demoProject rfl rfl

/-- C5: `DetailedHitTest` returns the empty result (a) on a track that is not
in waveform display when the command override does not apply, and (b) in
waveform display with single-tool mode, an empty cutline test and a tool that
is neither the envelope tool nor the draw tool. -/
theorem DetailedHitTest_no_hit (c : Collaborators) (this wavetrack : WaveTrack)
    (event : TrackPanelMouseEvent) (pProject : Project) (currentTool : Tool)
    (bMultiTool : Bool) (hcell : event.pCell = Track.Wave wavetrack)
    (hcase :
      (wavetrack.GetDisplay ≠ Display.Waveform
        ∧ ¬ (bMultiTool = true ∧ event.event.CmdDown = true))
      ∨ (wavetrack.GetDisplay = Display.Waveform ∧ bMultiTool = false
        ∧ (c.CutlineHitTest event.event event.rect pProject this).preview.cursor = none
        ∧ currentTool ≠ Tool.envelopeTool ∧ currentTool ≠ Tool.drawTool)) :
    WaveTrack.DetailedHitTest c this event pProject currentTool bMultiTool
        = Except.ok {}
      ∧ ({} : HitTestResult).preview.cursor = none
      ∧ ({} : HitTestResult).handle = none := by
  refine ⟨?_, rfl, rfl⟩
  rcases hcase with ⟨hd, hover⟩ | ⟨hd, hm, hcut, he, hdraw⟩
  · have hover2 : (bMultiTool && event.event.CmdDown) = false := by
      cases bMultiTool <;> cases hc : event.event.CmdDown <;> simp_all
    simp [WaveTrack.DetailedHitTest, hcell, hd, hover2]
  · subst hm
    cases currentTool <;> simp_all [WaveTrack.DetailedHitTest]

/-- Witness of C5: (a) a spectrogram track in multi-tool mode with every other
test hitting, (b) a waveform track with the zoom tool. -/
theorem DetailedHitTest_no_hit_witness :
    WaveTrack.DetailedHitTest
        { gripCollaborators with CutlineHitTest := fun _ _ _ _ => otherHit 1 } spectrumTrack
        (demoEvent (Track.Wave spectrumTrack) 0 false) demoProject Tool.envelopeTool true
      = Except.ok {}
    ∧ WaveTrack.DetailedHitTest gripCollaborators demoTrack
        (demoEvent (Track.Wave demoTrack) 0 true) demoProject Tool.zoomTool false
      = Except.ok {} :=
  ⟨(DetailedHitTest_no_hit
      { gripCollaborators with CutlineHitTest := fun _ _ _ _ => otherHit 1 } spectrumTrack
      spectrumTrack (demoEvent (Track.Wave spectrumTrack) 0 false) demoProject
      Tool.envelopeTool true rfl (Or.inl ⟨by decide, by decide⟩)).1,
   (DetailedHitTest_no_hit gripCollaborators demoTrack demoTrack
      (demoEvent (Track.Wave demoTrack) 0 true) demoProject Tool.zoomTool false rfl
      (Or.inr ⟨rfl, rfl, rfl, by decide, by decide⟩)).1⟩

/-- C6: `HitAnywhere` never returns a null cursor; with audio active it is the
disabled cursor with a null handle, otherwise the envelope cursor with the
envelope handle; so the handle is non-null exactly when audio is not active. -/
theorem HitAnywhere_spec (pProject : Project) :
    (EnvelopeHandle.HitAnywhere pProject).preview.cursor ≠ none
    ∧ EnvelopeHandle.HitAnywhere pProject
        = (if pProject.IsAudioActive = true then
            { preview := { message := pProject.GetMessageForTool Tool.envelopeTool
                           cursor := some Cursor.disabledCursor }
              handle := none }
           else
            { preview := { message := pProject.GetMessageForTool Tool.envelopeTool
                           cursor := some Cursor.envelopeCursor }
              handle := some UIHandle.EnvelopeInstance })
    ∧ ((EnvelopeHandle.HitAnywhere pProject).handle ≠ none
        ↔ pProject.IsAudioActive = false) := by
  refine ⟨HitAnywhere_cursor_ne_none pProject, ?_, ?_⟩ <;>
    cases h : pProject.IsAudioActive <;>
    simp [EnvelopeHandle.HitAnywhere, EnvelopeHandle.HitPreview, h]

/-- C4: in the multi-tool branch (multi-tool mode, command modifier up,
waveform display, cutline test empty) the result is the first non-empty one of
the envelope, time-shift and sample hit tests, in that order; when all three
are empty the result has a null cursor. A fault of the envelope hit test is
passed on. -/
theorem DetailedHitTest_multiTool_firstMatch (c : Collaborators)
    (this wavetrack : WaveTrack) (event : TrackPanelMouseEvent) (pProject : Project)
    (currentTool : Tool) (hcell : event.pCell = Track.Wave wavetrack)
    (hdisplay : wavetrack.GetDisplay = Display.Waveform)
    (hcmd : event.event.CmdDown = false)
    (hcut : (c.CutlineHitTest event.event event.rect pProject this).preview.cursor = none) :
    match EnvelopeHandle.WaveTrackHitTest c event.event event.rect pProject this with
    | Except.error f =>
      WaveTrack.DetailedHitTest c this event pProject currentTool true = Except.error f
    | Except.ok envelopeResult =>
      ∃ r, WaveTrack.DetailedHitTest c this event pProject currentTool true = Except.ok r
        ∧ (firstMatch [envelopeResult,
              c.TimeShiftHitTest event.event event.rect pProject,
              c.SampleHitTest event.event event.rect pProject this] = some r
          ∨ (firstMatch [envelopeResult,
                c.TimeShiftHitTest event.event event.rect pProject,
                c.SampleHitTest event.event event.rect pProject this] = none
              ∧ r.preview.cursor = none)) := by
  cases henv : EnvelopeHandle.WaveTrackHitTest c event.event event.rect pProject this with
  | error f =>
    simp [WaveTrack.DetailedHitTest, hcell, hdisplay, hcmd, hcut, henv]
  | ok envelopeResult =>
    by_cases h1 : envelopeResult.preview.cursor = none
    · by_cases h2 : (c.TimeShiftHitTest event.event event.rect pProject).preview.cursor = none
      · by_cases h3 :
          (c.SampleHitTest event.event event.rect pProject this).preview.cursor = none
        · refine ⟨c.SampleHitTest event.event event.rect pProject this, ?_, Or.inr ⟨?_, h3⟩⟩
          · simp [WaveTrack.DetailedHitTest, hcell, hdisplay, hcmd, hcut, henv, h1, h2]
          · simp [firstMatch, List.find?, h1, h2, h3]
        · refine ⟨c.SampleHitTest event.event event.rect pProject this, ?_, Or.inl ?_⟩
          · simp [WaveTrack.DetailedHitTest, hcell, hdisplay, hcmd, hcut, henv, h1, h2]
          · simp [firstMatch, List.find?, h1, h2, h3]
      · refine ⟨c.TimeShiftHitTest event.event event.rect pProject, ?_, Or.inl ?_⟩
        · simp [WaveTrack.DetailedHitTest, hcell, hdisplay, hcmd, hcut, henv, h1, h2]
        · simp [firstMatch, List.find?, h1, h2]
    · refine ⟨envelopeResult, ?_, Or.inl ?_⟩
      · simp [WaveTrack.DetailedHitTest, hcell, hdisplay, hcmd, hcut, henv, h1]
      · simp [firstMatch, List.find?, h1]

/-- The demo cell shown at -2 .. 2 has contour spacing `200 / (2 * 4) = 25`. -/
theorem ContourSpacing_demo : ContourSpacing demoRect (-2) 2 = 25 := by
  have h : ((demoRect.height : ℚ) / (2 * (2 - (-2)))) = ((25 : Int) : ℚ) := by
    norm_num [demoRect]
  rw [ContourSpacing, h, truncToInt]
  simp

/-- A non-zero contour spacing comes from a non-zero divisor. -/
theorem ContourSpacing_divisor_ne_zero (rect : Rect) (zoomMin zoomMax : ℚ)
    (h : ContourSpacing rect zoomMin zoomMax ≠ 0) : 2 * (zoomMax - zoomMin) ≠ 0 := by
  intro h0
  apply h
  simp [ContourSpacing, h0, truncToInt]

/-- With a non-zero contour spacing `HitEnvelope` returns, and its result is
decided by the two tests on `yDisplace`. -/
theorem HitEnvelope_eq (c : Collaborators) (event : MouseEvent) (rect : Rect)
    (pProject : Project) (envelope : Envelope) (zoomMin zoomMax : ℚ) (dB : Bool)
    (dBRange : ℚ) (ctr envelopePx yMouse yValue S d : Int)
    (hctr : ctr = c.GetWaveYPos 0 zoomMin zoomMax rect.height dB true dBRange false + rect.y)
    (hpx : envelopePx
      = c.GetWaveYPos (envelope.GetValue (pProject.viewInfo.PositionToTime event.m_x rect.x))
          zoomMin zoomMax rect.height dB true dBRange false + rect.y)
    (hyMouse : yMouse = |ctr - event.m_y|) (hyValue : yValue = |ctr - envelopePx|)
    (hS : S = ContourSpacing rect zoomMin zoomMax) (hS0 : S ≠ 0)
    (hd : d = yValue - 2 - yMouse + Int.tdiv S 2) :
    EnvelopeHandle.HitEnvelope c event rect pProject envelope zoomMin zoomMax dB dBRange
      = Except.ok (if d ≤ 2 * S ∧ |Int.tmod d S - Int.tdiv S 2| < 5
                   then EnvelopeHandle.HitAnywhere pProject else {}) := by
  have hden : 2 * (zoomMax - zoomMin) ≠ 0 :=
    ContourSpacing_divisor_ne_zero rect zoomMin zoomMax (hS ▸ hS0)
  have hS0b : ContourSpacing rect zoomMin zoomMax ≠ 0 := hS ▸ hS0
  subst hctr hpx hyMouse hyValue hS hd
  unfold EnvelopeHandle.HitEnvelope
  simp only [hden, if_false, hS0b]
  by_cases h1 : |c.GetWaveYPos 0 zoomMin zoomMax rect.height dB true dBRange false + rect.y
        - (c.GetWaveYPos (envelope.GetValue (pProject.viewInfo.PositionToTime event.m_x rect.x))
            zoomMin zoomMax rect.height dB true dBRange false + rect.y)| - 2
      - |c.GetWaveYPos 0 zoomMin zoomMax rect.height dB true dBRange false + rect.y - event.m_y|
      + Int.tdiv (ContourSpacing rect zoomMin zoomMax) 2
      ≤ 2 * ContourSpacing rect zoomMin zoomMax
  · simp only [gt_iff_lt, not_lt.mpr h1, if_false, h1, true_and, ge_iff_le]
    split_ifs with h2 h3 h3
    · exact absurd h3 (not_lt.mpr h2)
    · rfl
    · rfl
    · exact absurd (not_le.mp h2) h3
  · simp only [gt_iff_lt, not_le.mp h1, if_true, h1, false_and, if_false]

/-- In the demo setting the envelope hit test misses a click on the centre
line: `yDisplace = 100 - 2 - 0 + 12 = 110 > 50`. -/
theorem WaveTrackHitTest_demo_centre (c : Collaborators)
    (hpos : c.GetWaveYPos = demoCollaborators.GetWaveYPos) :
    EnvelopeHandle.WaveTrackHitTest c (demoEvent (Track.Wave demoTrack) 100 false).event
      (demoEvent (Track.Wave demoTrack) 100 false).rect demoProject demoTrack
      = Except.ok {} := by
  have h := HitEnvelope_eq c (demoEvent (Track.Wave demoTrack) 100 false).event demoRect
    demoProject demoEnvelope (-2) 2 false 60 100 0 0 100 25 110
    (by simp [hpos, demoCollaborators, demoRect])
    (by simp [hpos, demoCollaborators, demoRect, demoEnvelope])
    (by simp [demoEvent]) (by simp) ContourSpacing_demo.symm (by decide) (by decide)
  simp only [EnvelopeHandle.WaveTrackHitTest, demoTrack, demoChannel, demoEvent] at h ⊢
  simp only [ne_eq, not_true_eq_false, if_false, Bool.not_true]
  rw [h, if_neg (by decide)]

/-- Witness of C4: the envelope test misses, the time-shift grip and the
sample test both hit, and the grip (the earlier candidate) is returned. -/
theorem DetailedHitTest_multiTool_firstMatch_witness :
    ∃ r, WaveTrack.DetailedHitTest gripCollaborators demoTrack
          (demoEvent (Track.Wave demoTrack) 100 false) demoProject Tool.selectTool true
          = Except.ok r
      ∧ (firstMatch [{}, otherHit 4, otherHit 5] = some r
        ∨ (firstMatch [{}, otherHit 4, otherHit 5] = none ∧ r.preview.cursor = none)) := by
  have h := DetailedHitTest_multiTool_firstMatch gripCollaborators demoTrack demoTrack
    (demoEvent (Track.Wave demoTrack) 100 false) demoProject Tool.selectTool rfl rfl rfl rfl
  rw [WaveTrackHitTest_demo_centre gripCollaborators rfl] at h
  exact h

/-- C7: with contour spacing `S ≥ 1`, `HitEnvelope` returns the result of
`HitAnywhere` if and only if `d ≤ 2 * S` and `|d rem S - S / 2| < 5`, where
`d = yValue - 2 - yMouse + S / 2`; otherwise it returns the empty result. -/
theorem HitEnvelope_hit_iff (c : Collaborators) (event : MouseEvent) (rect : Rect)
    (pProject : Project) (envelope : Envelope) (zoomMin zoomMax : ℚ) (dB : Bool)
    (dBRange : ℚ) (ctr envelopePx yMouse yValue S d : Int)
    (hctr : ctr = c.GetWaveYPos 0 zoomMin zoomMax rect.height dB true dBRange false + rect.y)
    (hpx : envelopePx
      = c.GetWaveYPos (envelope.GetValue (pProject.viewInfo.PositionToTime event.m_x rect.x))
          zoomMin zoomMax rect.height dB true dBRange false + rect.y)
    (hyMouse : yMouse = |ctr - event.m_y|) (hyValue : yValue = |ctr - envelopePx|)
    (hS : S = ContourSpacing rect zoomMin zoomMax) (hS1 : 1 ≤ S)
    (hd : d = yValue - 2 - yMouse + Int.tdiv S 2) :
    (EnvelopeHandle.HitEnvelope c event rect pProject envelope zoomMin zoomMax dB dBRange
        = Except.ok (EnvelopeHandle.HitAnywhere pProject)
      ↔ (d ≤ 2 * S ∧ |Int.tmod d S - Int.tdiv S 2| < 5))
    ∧ (¬ (d ≤ 2 * S ∧ |Int.tmod d S - Int.tdiv S 2| < 5) →
        EnvelopeHandle.HitEnvelope c event rect pProject envelope zoomMin zoomMax dB dBRange
          = Except.ok {}) := by
  have h := HitEnvelope_eq c event rect pProject envelope zoomMin zoomMax dB dBRange
    ctr envelopePx yMouse yValue S d hctr hpx hyMouse hyValue hS (by omega) hd
  rw [h]
  constructor
  · constructor
    · intro heq
      by_contra hcond
      rw [if_neg hcond] at heq
      exact HitAnywhere_ne_empty pProject (Except.ok.inj heq).symm
    · intro hcond
      rw [if_pos hcond]
  · intro hcond
    rw [if_neg hcond]

/-- Witness of C7: the demo cell (centre row 100, envelope row 0, spacing 25)
and a click at row 2, where `yMouse = 98` and `d = 100 - 2 - 98 + 12 = 12`. -/
theorem HitEnvelope_hit_iff_witness :
    (1 : Int) ≤ 25
    ∧ (EnvelopeHandle.HitEnvelope demoCollaborators { m_x := 10, m_y := 2, CmdDown := false }
          demoRect demoProject demoEnvelope (-2) 2 false 60
        = Except.ok (EnvelopeHandle.HitAnywhere demoProject)
      ↔ ((12 : Int) ≤ 2 * 25 ∧ |Int.tmod 12 25 - Int.tdiv 25 2| < 5)) :=
  ⟨by decide,
   (HitEnvelope_hit_iff demoCollaborators { m_x := 10, m_y := 2, CmdDown := false }
      demoRect demoProject demoEnvelope (-2) 2 false 60 100 0 98 100 25 12
      (by simp [demoCollaborators, demoRect])
      (by simp [demoCollaborators, demoRect, demoEnvelope])
      (by decide) (by decide) ContourSpacing_demo.symm (by decide) (by decide)).1⟩

/-- Distance zero from line `k` puts `yDisplace` at `k * S + S / 2`; for
`S ≥ 1` its truncated remainder by `S` is `S / 2`. -/
theorem tmod_line (S k : Int) (hS1 : 1 ≤ S) (hk : 0 ≤ k) :
    Int.tmod (k * S + Int.tdiv S 2) S = Int.tdiv S 2 := by
  have hdiv : Int.tdiv S 2 = S / 2 := Int.tdiv_eq_ediv (by omega) (by omega)
  have h0 : 0 ≤ S / 2 := by omega
  have h1 : S / 2 < S := by omega
  rw [hdiv, Int.tmod_eq_emod (by positivity) (by omega), add_comm,
    Int.add_mul_emod_self, Int.emod_eq_of_lt h0 h1]

/-- C8 as stated fails for the second contour line: in the demo cell
(spacing 25, `yValue = 100`) the click at row 52 has
`yMouse = 48 = yValue - 2 - 2 * 25`, at distance zero from line 2, and is not
a hit: `yDisplace = 62 > 50`. -/
theorem HitEnvelope_contour_counterexample :
    (1 : Int) ≤ ContourSpacing demoRect (-2) 2
    ∧ |(100 : Int) - 52| = |(100 : Int) - 0| - 2 - 2 * ContourSpacing demoRect (-2) 2
    ∧ EnvelopeHandle.HitEnvelope demoCollaborators { m_x := 10, m_y := 52, CmdDown := false }
          demoRect demoProject demoEnvelope (-2) 2 false 60
        = Except.ok {}
    ∧ EnvelopeHandle.HitEnvelope demoCollaborators { m_x := 10, m_y := 52, CmdDown := false }
          demoRect demoProject demoEnvelope (-2) 2 false 60
        ≠ Except.ok (EnvelopeHandle.HitAnywhere demoProject) := by
  have h := HitEnvelope_eq demoCollaborators { m_x := 10, m_y := 52, CmdDown := false }
    demoRect demoProject demoEnvelope (-2) 2 false 60 100 0 48 100 25 62
    (by simp [demoCollaborators, demoRect])
    (by simp [demoCollaborators, demoRect, demoEnvelope])
    (by decide) (by decide) ContourSpacing_demo.symm (by decide) (by decide)
  rw [if_neg (by decide)] at h
  refine ⟨?_, ?_, h, ?_⟩
  · rw [ContourSpacing_demo]; decide
  · rw [ContourSpacing_demo]; decide
  · rw [h]
    intro heq
    exact HitAnywhere_ne_empty demoProject (Except.ok.inj heq).symm

/-- C8, amended: for spacing `S ≥ 1` a mouse position at distance zero from
line `k` (`yMouse = yValue - 2 - k * S`) is a hit for `k = 0` (the envelope
line) and `k = 1` (the first contour); for `k = 2` it is a hit exactly when
`S = 1`, and otherwise the result is empty. -/
theorem HitEnvelope_contour (c : Collaborators) (event : MouseEvent) (rect : Rect)
    (pProject : Project) (envelope : Envelope) (zoomMin zoomMax : ℚ) (dB : Bool)
    (dBRange : ℚ) (ctr envelopePx yMouse yValue S k : Int)
    (hctr : ctr = c.GetWaveYPos 0 zoomMin zoomMax rect.height dB true dBRange false + rect.y)
    (hpx : envelopePx
      = c.GetWaveYPos (envelope.GetValue (pProject.viewInfo.PositionToTime event.m_x rect.x))
          zoomMin zoomMax rect.height dB true dBRange false + rect.y)
    (hyMouse : yMouse = |ctr - event.m_y|) (hyValue : yValue = |ctr - envelopePx|)
    (hS : S = ContourSpacing rect zoomMin zoomMax) (hS1 : 1 ≤ S)
    (hk : k = 0 ∨ k = 1 ∨ k = 2) (hline : yMouse = yValue - 2 - k * S) :
    EnvelopeHandle.HitEnvelope c event rect pProject envelope zoomMin zoomMax dB dBRange
      = Except.ok (if k = 0 ∨ k = 1 ∨ S = 1 then EnvelopeHandle.HitAnywhere pProject else {}) := by
  have h := HitEnvelope_eq c event rect pProject envelope zoomMin zoomMax dB dBRange
    ctr envelopePx yMouse yValue S (k * S + Int.tdiv S 2) hctr hpx hyMouse hyValue hS
    (by omega) (by rw [hline]; ring)
  rw [h, tmod_line S k hS1 (by omega)]
  have hdiv : Int.tdiv S 2 = S / 2 := Int.tdiv_eq_ediv (by omega) (by omega)
  have hcond : (k * S + Int.tdiv S 2 ≤ 2 * S ∧ |Int.tdiv S 2 - Int.tdiv S 2| < 5)
      ↔ (k = 0 ∨ k = 1 ∨ S = 1) := by
    rw [hdiv]
    simp only [sub_self, abs_zero, Nat.ofNat_pos, and_true]
    rcases hk with hk | hk | hk <;> subst hk
    · simp only [zero_mul, zero_add, true_or, iff_true]; omega
    · simp only [one_mul, true_or, or_true, iff_true]; omega
    · constructor
      · intro hle; right; right; omega
      · rintro (h0 | h0 | h0) <;> omega
  simp only [hcond]

/-- Witness of the amended C8: the first contour of the demo cell, a click at
row 27 with `yMouse = 73 = 100 - 2 - 25`. -/
theorem HitEnvelope_contour_witness :
    EnvelopeHandle.HitEnvelope demoCollaborators { m_x := 10, m_y := 27, CmdDown := false }
        demoRect demoProject demoEnvelope (-2) 2 false 60
      = Except.ok (if (1 : Int) = 0 ∨ (1 : Int) = 1 ∨ (25 : Int) = 1
                   then EnvelopeHandle.HitAnywhere demoProject else {}) :=
  HitEnvelope_contour demoCollaborators { m_x := 10, m_y := 27, CmdDown := false }
    demoRect demoProject demoEnvelope (-2) 2 false 60 100 0 73 100 25 1
    (by simp [demoCollaborators, demoRect])
    (by simp [demoCollaborators, demoRect, demoEnvelope])
    (by decide) (by decide) ContourSpacing_demo.symm (by decide) (by decide) (by decide)

/-- C9: while audio is active `Click` returns `Cancelled` and changes nothing:
the handle keeps every field and the trace gains no call (no `PushState`, no
`RollbackState`, no editor constructed, no event forwarded). -/
theorem Click_audio_active (c : Collaborators) (evt : TrackPanelMouseEvent)
    (pProject : Project) (s : State) (haudio : pProject.IsAudioActive = true) :
    EnvelopeHandle.Click c evt pProject s = Except.ok (RefreshCode.Cancelled, s) := by
  simp [EnvelopeHandle.Click, haudio]

/-- Witness of C9: a click on a valid envelope of a waveform track, with a
handle that still holds two editors. -/
theorem Click_audio_active_witness :
    EnvelopeHandle.Click demoCollaborators (demoEvent (Track.Wave demoTrack) 2 false)
        busyProject { handle := busyHandle, trace := [Effect.RollbackState] }
      = Except.ok (RefreshCode.Cancelled,
          { handle := busyHandle, trace := [Effect.RollbackState] }) :=
  Click_audio_active demoCollaborators (demoEvent (Track.Wave demoTrack) 2 false)
    busyProject { handle := busyHandle, trace := [Effect.RollbackState] } rfl

/-- With a primary editor in place `ForwardEventToEnvelopes` returns and
leaves the handle as it was. -/
theorem ForwardEventToEnvelopes_ok (c : Collaborators) (event : MouseEvent)
    (viewInfo : ViewInfo) (s : State) (editor : EnvelopeEditor)
    (h : s.handle.mEnvelopeEditor = some editor) :
    ∃ needUpdate s1, EnvelopeHandle.ForwardEventToEnvelopes c event viewInfo s
        = Except.ok (needUpdate, s1) ∧ s1.handle = s.handle := by
  unfold EnvelopeHandle.ForwardEventToEnvelopes
  simp only [h]
  cases hr : s.handle.mEnvelopeEditorRight with
  | none => exact ⟨_, _, rfl, rfl⟩
  | some right => exact ⟨_, _, rfl, rfl⟩

/-- The dispatch of `Click` on the track kind fails exactly in the cases the
rejection condition lists (audio aside). -/
theorem ClickPrepare_eq_none_iff (c : Collaborators) (evt : TrackPanelMouseEvent)
    (pProject : Project) (s : State) (haudio : pProject.IsAudioActive = false) :
    EnvelopeHandle.ClickPrepare c evt pProject s = none ↔ ClickRejects evt pProject = true := by
  unfold EnvelopeHandle.ClickPrepare ClickRejects
  rw [haudio]
  cases hcell : evt.pCell with
  | Wave wt =>
    cases hd : wt.GetDisplay <;> cases he : wt.GetEnvelopeAtX evt.event.m_x <;>
      cases hl : wt.GetLink <;> simp [hd, he, hl]
    rename_i envelope partner
    cases hp : partner.GetEnvelopeAtX evt.event.m_x <;> simp [hp]
  | Time tt =>
    cases he : tt.GetEnvelope <;> simp [he]
  | Other kind => simp

/-- When the dispatch of `Click` succeeds, the primary editor is set. -/
theorem ClickPrepare_editor (c : Collaborators) (evt : TrackPanelMouseEvent)
    (pProject : Project) (s s1 : State)
    (h : EnvelopeHandle.ClickPrepare c evt pProject s = some s1) :
    ∃ editor, s1.handle.mEnvelopeEditor = some editor := by
  unfold EnvelopeHandle.ClickPrepare at h
  cases hcell : evt.pCell with
  | Wave wt =>
    rw [hcell] at h
    cases hd : wt.GetDisplay <;> cases he : wt.GetEnvelopeAtX evt.event.m_x <;>
      cases hl : wt.GetLink <;> simp [hd, he, hl] at h
    · subst h; exact ⟨_, rfl⟩
    · rename_i envelope partner
      cases hp : partner.GetEnvelopeAtX evt.event.m_x <;> simp [hp] at h <;>
        (subst h; exact ⟨_, rfl⟩)
  | Time tt =>
    rw [hcell] at h
    cases he : tt.GetEnvelope <;> simp [he] at h
    subst h; exact ⟨_, rfl⟩
  | Other kind =>
    rw [hcell] at h
    simp at h

/-- C10: `Click` always returns; it returns `Cancelled` if and only if the
rejection condition holds, and then the state (every handle field and the
trace of calls) is unchanged; otherwise it returns `RefreshCell` or
`RefreshNone` and the primary editor is non-null afterwards. -/
theorem Click_rejection_exact (c : Collaborators) (evt : TrackPanelMouseEvent)
    (pProject : Project) (s : State) :
    ∃ r s1, EnvelopeHandle.Click c evt pProject s = Except.ok (r, s1)
      ∧ (r = RefreshCode.Cancelled ↔ ClickRejects evt pProject = true)
      ∧ (ClickRejects evt pProject = true → s1 = s)
      ∧ (ClickRejects evt pProject = false →
          (r = RefreshCode.RefreshCell ∨ r = RefreshCode.RefreshNone)
          ∧ s1.handle.mEnvelopeEditor ≠ none) := by
  cases haudio : pProject.IsAudioActive with
  | true =>
    have hrej : ClickRejects evt pProject = true := by simp [ClickRejects, haudio]
    refine ⟨RefreshCode.Cancelled, s, ?_, ?_, ?_, ?_⟩
    · simp [EnvelopeHandle.Click, haudio]
    · simp [hrej]
    · intro _; rfl
    · intro h; rw [hrej] at h; cases h
  | false =>
    cases hprep : EnvelopeHandle.ClickPrepare c evt pProject s with
    | none =>
      have hrej : ClickRejects evt pProject = true :=
        (ClickPrepare_eq_none_iff c evt pProject s haudio).mp hprep
      refine ⟨RefreshCode.Cancelled, s, ?_, ?_, ?_, ?_⟩
      · simp [EnvelopeHandle.Click, haudio, hprep]
      · simp [hrej]
      · intro _; rfl
      · intro h; rw [hrej] at h; cases h
    | some s1 =>
      have hrej : ClickRejects evt pProject = false := by
        cases hr : ClickRejects evt pProject with
        | false => rfl
        | true =>
          have := (ClickPrepare_eq_none_iff c evt pProject s haudio).mpr hr
          rw [hprep] at this
          cases this
      obtain ⟨editor, hed⟩ := ClickPrepare_editor c evt pProject s s1 hprep
      obtain ⟨needUpdate, s3, hfwd, hhandle⟩ :=
        ForwardEventToEnvelopes_ok c evt.event pProject.viewInfo
          { s1 with handle := { s1.handle with mRect := evt.rect } } editor hed
      refine ⟨if needUpdate then RefreshCode.RefreshCell else RefreshCode.RefreshNone,
        s3, ?_, ?_, ?_, ?_⟩
      · simp [EnvelopeHandle.Click, haudio, hprep, hfwd]
      · rw [hrej]
        cases needUpdate <;> simp [RefreshCode.RefreshCell, RefreshCode.RefreshNone,
          RefreshCode.Cancelled]
      · intro h; rw [hrej] at h; cases h
      · intro _
        refine ⟨?_, ?_⟩
        · cases needUpdate <;> simp
        · rw [hhandle]; simp [hed]

/-- The `PushState` calls of a concatenated trace. -/
theorem pushStates_append (t u : List Effect) :
    pushStates (t ++ u) = pushStates t ++ pushStates u := by
  induction t with
  | nil => rfl
  | cons e rest ih => cases e <;> simp [pushStates, ih]

/-- The `RollbackState` calls of a concatenated trace. -/
theorem rollbacks_append (t u : List Effect) :
    rollbacks (t ++ u) = rollbacks t + rollbacks u := by
  induction t with
  | nil => simp [rollbacks]
  | cons e rest ih =>
    cases e
    all_goals simp [rollbacks, ih]
    omega

/-- The forwarded calls of a concatenated trace. -/
theorem forwardedCalls_append (t u : List Effect) :
    forwardedCalls (t ++ u) = forwardedCalls t ++ forwardedCalls u := by
  induction t with
  | nil => rfl
  | cons e rest ih => cases e <;> simp [forwardedCalls, ih]

/-- C12: while audio is active, `Drag` and `Release` both make exactly the
state change of `Cancel`: one `RollbackState`, no `PushState`, no event
forwarded, both editors released; `Drag` returns `RefreshCell | Cancelled`. -/
theorem Drag_Release_audio_active (c : Collaborators) (evt : TrackPanelMouseEvent)
    (pProject : Project) (s : State) (haudio : pProject.IsAudioActive = true) :
    EnvelopeHandle.Drag c evt pProject s
        = Except.ok (RefreshCode.or RefreshCode.RefreshCell RefreshCode.Cancelled,
            (EnvelopeHandle.Cancel s).2)
    ∧ (∃ r, EnvelopeHandle.Release c evt pProject s
        = Except.ok (r, (EnvelopeHandle.Cancel s).2))
    ∧ (EnvelopeHandle.Cancel s).2.trace = s.trace ++ [Effect.RollbackState]
    ∧ forwardedCalls (EnvelopeHandle.Cancel s).2.trace = forwardedCalls s.trace
    ∧ rollbacks (EnvelopeHandle.Cancel s).2.trace = rollbacks s.trace + 1
    ∧ pushStates (EnvelopeHandle.Cancel s).2.trace = pushStates s.trace
    ∧ (EnvelopeHandle.Cancel s).2.handle.mEnvelopeEditor = none
    ∧ (EnvelopeHandle.Cancel s).2.handle.mEnvelopeEditorRight = none := by
  refine ⟨?_, ⟨(EnvelopeHandle.Cancel s).1, ?_⟩, rfl, ?_, ?_, ?_, rfl, rfl⟩
  · simp [EnvelopeHandle.Drag, haudio]
  · simp [EnvelopeHandle.Release, haudio]
  · simp [EnvelopeHandle.Cancel, forwardedCalls_append, forwardedCalls]
  · simp [EnvelopeHandle.Cancel, rollbacks_append, rollbacks]
  · simp [EnvelopeHandle.Cancel, pushStates_append, pushStates]

/-- Witness of C12: a handle holding two editors, audio running. -/
theorem Drag_Release_audio_active_witness :
    EnvelopeHandle.Drag demoCollaborators (demoEvent (Track.Wave demoTrack) 2 false)
        busyProject busyState
      = Except.ok (RefreshCode.or RefreshCode.RefreshCell RefreshCode.Cancelled,
          (EnvelopeHandle.Cancel busyState).2)
    ∧ (EnvelopeHandle.Cancel busyState).2.handle.mEnvelopeEditor = none :=
  ⟨(Drag_Release_audio_active demoCollaborators (demoEvent (Track.Wave demoTrack) 2 false)
      busyProject busyState rfl).1,
   (Drag_Release_audio_active demoCollaborators (demoEvent (Track.Wave demoTrack) 2 false)
      busyProject busyState rfl).2.2.2.2.2.2.1⟩

/-- C13 as stated fails: `Release` while audio is active returns a result
without the `Cancelled` flag. -/
theorem Release_audio_active_counterexample :
    ¬ ∃ r s1, EnvelopeHandle.Release demoCollaborators
          (demoEvent (Track.Wave demoTrack) 2 false) busyProject busyState
          = Except.ok (r, s1)
        ∧ r.cancelled = true := by
  rintro ⟨r, s1, h, hr⟩
  have h0 : EnvelopeHandle.Release demoCollaborators
      (demoEvent (Track.Wave demoTrack) 2 false) busyProject busyState
        = Except.ok (EnvelopeHandle.Cancel busyState) := rfl
  rw [h0] at h
  have hr1 : r = RefreshCode.RefreshCell := (congrArg Prod.fst (Except.ok.inj h)).symm
  rw [hr1] at hr
  exact absurd hr (by decide)

/-- C13, amended: `Release` while audio is active makes the transition of
`Cancel` and returns what `Cancel` returns, `RefreshCell`, which does not
contain the `Cancelled` flag; the results of `Click` and of `Drag` in the same
situation do contain it. -/
theorem Release_audio_active (c : Collaborators) (evt : TrackPanelMouseEvent)
    (pProject : Project) (s : State) (haudio : pProject.IsAudioActive = true) :
    EnvelopeHandle.Release c evt pProject s
        = Except.ok (RefreshCode.RefreshCell, (EnvelopeHandle.Cancel s).2)
    ∧ RefreshCode.RefreshCell.cancelled = false
    ∧ (∃ r s1, EnvelopeHandle.Drag c evt pProject s = Except.ok (r, s1)
        ∧ r.cancelled = true)
    ∧ (∃ r s1, EnvelopeHandle.Click c evt pProject s = Except.ok (r, s1)
        ∧ r.cancelled = true) := by
  refine ⟨?_, rfl,
    ⟨RefreshCode.or RefreshCode.RefreshCell RefreshCode.Cancelled,
      (EnvelopeHandle.Cancel s).2, ?_, rfl⟩,
    ⟨RefreshCode.Cancelled, s, ?_, rfl⟩⟩
  · simp [EnvelopeHandle.Release, haudio, EnvelopeHandle.Cancel]
  · simp [EnvelopeHandle.Drag, haudio]
  · simp [EnvelopeHandle.Click, haudio]

/-- Witness of the amended C13: a handle holding two editors, audio running. -/
theorem Release_audio_active_witness :
    EnvelopeHandle.Release demoCollaborators (demoEvent (Track.Wave demoTrack) 2 false)
        busyProject busyState
      = Except.ok (RefreshCode.RefreshCell, (EnvelopeHandle.Cancel busyState).2) :=
  (Release_audio_active demoCollaborators (demoEvent (Track.Wave demoTrack) 2 false)
    busyProject busyState rfl).1

/-- C20: in logarithmic mode the outputs of `GetTimeTrackData` do not depend
on the track's lower range value, and `zoomMin` is computed from `dBRange`
alone; in linear mode `zoomMin` and `zoomMax` are the track's lower and upper
range values. -/
theorem GetTimeTrackData_bounds (c : Collaborators) (project : Project)
    (tt : TimeTrack) (lower : ℚ) :
    (tt.GetDisplayLog = true →
      GetTimeTrackData c project { tt with GetRangeLower := lower }
          = GetTimeTrackData c project tt
        ∧ (GetTimeTrackData c project tt).zoomMin
          = c.LINEAR_TO_DB (max (1 / 10 ^ 7) project.viewInfo.dBr)
              / project.viewInfo.dBr + 1
        ∧ (GetTimeTrackData c project tt).dBRange = project.viewInfo.dBr)
    ∧ (tt.GetDisplayLog = false →
        (GetTimeTrackData c project tt).zoomMin = tt.GetRangeLower
        ∧ (GetTimeTrackData c project tt).zoomMax = tt.GetRangeUpper) := by
  constructor
  · intro hlog
    simp [GetTimeTrackData, hlog]
  · intro hlin
    simp [GetTimeTrackData, hlin]

/-- On non-negative values truncation toward zero is the floor. -/
theorem truncToInt_of_nonneg (q : ℚ) (h : 0 ≤ q) : truncToInt q = ⌊q⌋ := by
  rw [truncToInt, Rat.floor_def,
    Int.tdiv_eq_ediv (Rat.num_nonneg.mpr h) (Int.ofNat_nonneg q.den)]

/-- With a non-zero divisor and contour spacing zero, `HitEnvelope` returns
the empty result when `yDisplace` is positive and otherwise divides by zero. -/
theorem HitEnvelope_spacing_zero (c : Collaborators) (event : MouseEvent) (rect : Rect)
    (pProject : Project) (envelope : Envelope) (zoomMin zoomMax : ℚ) (dB : Bool)
    (dBRange : ℚ) (ctr envelopePx yMouse yValue yDisplace : Int)
    (hctr : ctr = c.GetWaveYPos 0 zoomMin zoomMax rect.height dB true dBRange false + rect.y)
    (hpx : envelopePx
      = c.GetWaveYPos (envelope.GetValue (pProject.viewInfo.PositionToTime event.m_x rect.x))
          zoomMin zoomMax rect.height dB true dBRange false + rect.y)
    (hyMouse : yMouse = |ctr - event.m_y|) (hyValue : yValue = |ctr - envelopePx|)
    (hd : yDisplace
      = yValue - 2 - yMouse + Int.tdiv (ContourSpacing rect zoomMin zoomMax) 2)
    (hden : 2 * (zoomMax - zoomMin) ≠ 0) (hS : ContourSpacing rect zoomMin zoomMax = 0) :
    EnvelopeHandle.HitEnvelope c event rect pProject envelope zoomMin zoomMax dB dBRange
      = (if 0 < yDisplace then Except.ok {} else Except.error Fault.divisionByZero) := by
  subst hctr hpx hyMouse hyValue hd
  unfold EnvelopeHandle.HitEnvelope
  simp only [hden, if_false, hS, gt_iff_lt, mul_zero, if_true]

/-- C19: with `zoomMin < zoomMax` and a non-negative height the contour
spacing is at least 1 exactly when `height ≥ 2 * (zoomMax - zoomMin)`, and then
`HitEnvelope` returns; when `height < 2 * (zoomMax - zoomMin)` the spacing is 0
and every input with `yDisplace ≤ 0` passes the early rejection and divides by
zero. -/
theorem ContourSpacing_divisor (c : Collaborators) (event : MouseEvent) (rect : Rect)
    (pProject : Project) (envelope : Envelope) (zoomMin zoomMax : ℚ) (dB : Bool)
    (dBRange : ℚ) (ctr envelopePx yMouse yValue yDisplace : Int)
    (hctr : ctr = c.GetWaveYPos 0 zoomMin zoomMax rect.height dB true dBRange false + rect.y)
    (hpx : envelopePx
      = c.GetWaveYPos (envelope.GetValue (pProject.viewInfo.PositionToTime event.m_x rect.x))
          zoomMin zoomMax rect.height dB true dBRange false + rect.y)
    (hyMouse : yMouse = |ctr - event.m_y|) (hyValue : yValue = |ctr - envelopePx|)
    (hd : yDisplace
      = yValue - 2 - yMouse + Int.tdiv (ContourSpacing rect zoomMin zoomMax) 2)
    (hzoom : zoomMin < zoomMax) (hheight : 0 ≤ rect.height) :
    (1 ≤ ContourSpacing rect zoomMin zoomMax
      ↔ 2 * (zoomMax - zoomMin) ≤ (rect.height : ℚ))
    ∧ (2 * (zoomMax - zoomMin) ≤ (rect.height : ℚ) →
        ∃ r, EnvelopeHandle.HitEnvelope c event rect pProject envelope zoomMin zoomMax
          dB dBRange = Except.ok r)
    ∧ ((rect.height : ℚ) < 2 * (zoomMax - zoomMin) →
        ContourSpacing rect zoomMin zoomMax = 0
        ∧ (yDisplace ≤ 0 →
            EnvelopeHandle.HitEnvelope c event rect pProject envelope zoomMin zoomMax
              dB dBRange = Except.error Fault.divisionByZero)) := by
  have hpos : (0 : ℚ) < 2 * (zoomMax - zoomMin) := by linarith
  have hh : (0 : ℚ) ≤ (rect.height : ℚ) := by exact_mod_cast hheight
  have hq : (0 : ℚ) ≤ (rect.height : ℚ) / (2 * (zoomMax - zoomMin)) :=
    div_nonneg hh hpos.le
  have hfloor : ContourSpacing rect zoomMin zoomMax
      = ⌊(rect.height : ℚ) / (2 * (zoomMax - zoomMin))⌋ := by
    rw [ContourSpacing, truncToInt_of_nonneg _ hq]
  have hiff : 1 ≤ ContourSpacing rect zoomMin zoomMax
      ↔ 2 * (zoomMax - zoomMin) ≤ (rect.height : ℚ) := by
    rw [hfloor, Int.le_floor, le_div_iff₀ hpos]
    simp
  refine ⟨hiff, ?_, ?_⟩
  · intro hge
    have hS1 : 1 ≤ ContourSpacing rect zoomMin zoomMax := hiff.mpr hge
    exact ⟨_, HitEnvelope_eq c event rect pProject envelope zoomMin zoomMax dB dBRange
      ctr envelopePx yMouse yValue (ContourSpacing rect zoomMin zoomMax) yDisplace
      hctr hpx hyMouse hyValue rfl (by omega) hd⟩
  · intro hlt
    have hS0 : ContourSpacing rect zoomMin zoomMax = 0 := by
      rw [hfloor, Int.floor_eq_zero_iff]
      exact ⟨hq, (div_lt_one hpos).mpr hlt⟩
    refine ⟨hS0, ?_⟩
    intro hle
    rw [HitEnvelope_spacing_zero c event rect pProject envelope zoomMin zoomMax dB dBRange
      ctr envelopePx yMouse yValue yDisplace hctr hpx hyMouse hyValue hd hpos.ne' hS0,
      if_neg (by omega)]

/-- Witness of C19: a cell 3 pixels high shown at -2 .. 2 (`3 < 8`); the click
at row 0 has `yMouse = 100`, `yValue = 100`, spacing 0 and `yDisplace = -2`. -/
theorem ContourSpacing_divisor_witness :
    ContourSpacing thinRect (-2) 2 = 0
    ∧ EnvelopeHandle.HitEnvelope demoCollaborators { m_x := 10, m_y := 0, CmdDown := false }
        thinRect demoProject demoEnvelope (-2) 2 false 60
      = Except.error Fault.divisionByZero := by
  have hlt : ((thinRect.height : Int) : ℚ) < 2 * (2 - (-2)) := by norm_num [thinRect]
  have h := (ContourSpacing_divisor demoCollaborators
    { m_x := 10, m_y := 0, CmdDown := false } thinRect demoProject demoEnvelope (-2) 2
    false 60 100 0 100 100
    (100 - 2 - 100 + Int.tdiv (ContourSpacing thinRect (-2) 2) 2)
    (by simp [demoCollaborators, thinRect])
    (by simp [demoCollaborators, thinRect, demoEnvelope])
    (by decide) (by decide) rfl (by norm_num) (by decide)).2.2 hlt
  refine ⟨h.1, h.2 ?_⟩
  rw [h.1]
  decide

/-- With a primary editor in place `ForwardEventToEnvelopes` makes the calls
of `forwardEffects` and reports `forwardChanged`. -/
theorem ForwardEventToEnvelopes_eq (c : Collaborators) (event : MouseEvent)
    (viewInfo : ViewInfo) (s : State) (primary : EnvelopeEditor)
    (h : s.handle.mEnvelopeEditor = some primary) :
    EnvelopeHandle.ForwardEventToEnvelopes c event viewInfo s
      = Except.ok (forwardChanged c s.trace s.handle primary event viewInfo,
          { s with trace := s.trace ++ forwardEffects s.handle primary event viewInfo }) := by
  unfold EnvelopeHandle.ForwardEventToEnvelopes forwardChanged forwardEffects forwardedTo
  simp only [h]
  cases hr : s.handle.mEnvelopeEditorRight with
  | none => simp
  | some right => simp

/-- The calls of one forwarded event contain no `PushState`. -/
theorem pushStates_forwardEffects (h : EnvelopeHandle) (primary : EnvelopeEditor)
    (event : MouseEvent) (viewInfo : ViewInfo) :
    pushStates (forwardEffects h primary event viewInfo) = [] := by
  unfold forwardEffects
  cases h.mEnvelopeEditorRight <;> rfl

/-- The calls of one forwarded event contain no `RollbackState`. -/
theorem rollbacks_forwardEffects (h : EnvelopeHandle) (primary : EnvelopeEditor)
    (event : MouseEvent) (viewInfo : ViewInfo) :
    rollbacks (forwardEffects h primary event viewInfo) = 0 := by
  unfold forwardEffects
  cases h.mEnvelopeEditorRight <;> rfl

/-- Every call of one forwarded event carries the event and the handle's
rectangle and bounds. -/
theorem forwardedCalls_forwardEffects (h : EnvelopeHandle) (primary : EnvelopeEditor)
    (event : MouseEvent) (viewInfo : ViewInfo) (call : Forwarded)
    (hmem : call ∈ forwardedCalls (forwardEffects h primary event viewInfo)) :
    UsesSnapshot h call ∧ call.event = event := by
  unfold forwardEffects at hmem
  cases hr : h.mEnvelopeEditorRight with
  | none =>
    simp only [hr, forwardedCalls, List.mem_singleton] at hmem
    subst hmem
    exact ⟨⟨rfl, rfl, rfl, rfl, rfl⟩, rfl⟩
  | some right =>
    simp only [hr, forwardedCalls, List.mem_cons, List.mem_singleton, List.not_mem_nil,
      or_false] at hmem
    rcases hmem with hmem | hmem <;> subst hmem <;> exact ⟨⟨rfl, rfl, rfl, rfl, rfl⟩, rfl⟩

/-- With audio inactive and a primary editor in place, `Drag` forwards the
event and keeps the handle. -/
theorem Drag_eq (c : Collaborators) (evt : TrackPanelMouseEvent) (pProject : Project)
    (s : State) (primary : EnvelopeEditor) (haudio : pProject.IsAudioActive = false)
    (hprim : s.handle.mEnvelopeEditor = some primary) :
    EnvelopeHandle.Drag c evt pProject s
      = Except.ok
          (if forwardChanged c s.trace s.handle primary evt.event pProject.viewInfo
             then RefreshCode.RefreshCell else RefreshCode.RefreshNone,
           { s with trace := s.trace
               ++ forwardEffects s.handle primary evt.event pProject.viewInfo }) := by
  simp only [EnvelopeHandle.Drag, haudio,
    ForwardEventToEnvelopes_eq c evt.event pProject.viewInfo s primary hprim]
  simp

/-- After its dispatch on the track kind `Click` continues exactly as a
`Drag` does on the prepared handle with `mRect` set. -/
theorem Click_eq_Drag (c : Collaborators) (evt : TrackPanelMouseEvent)
    (pProject : Project) (s sPrep : State) (haudio : pProject.IsAudioActive = false)
    (hprep : EnvelopeHandle.ClickPrepare c evt pProject s = some sPrep) :
    EnvelopeHandle.Click c evt pProject s
      = EnvelopeHandle.Drag c evt pProject
          { sPrep with handle := { sPrep.handle with mRect := evt.rect } } := by
  simp only [EnvelopeHandle.Click, EnvelopeHandle.Drag, haudio, hprep]
  simp

/-- C15: with audio inactive and a primary editor in place, `Drag` returns
`RefreshCell` when the primary editor reports a change or the right editor
exists and reports one, and `RefreshNone` otherwise; the right editor, when
it exists, is always called, after the primary one and with the same
rectangle and bounds; a successful `Click` forwards its event the same way. -/
theorem Drag_forwards (c : Collaborators) (evt : TrackPanelMouseEvent)
    (pProject : Project) (s : State) (primary : EnvelopeEditor)
    (haudio : pProject.IsAudioActive = false)
    (hprim : s.handle.mEnvelopeEditor = some primary) :
    EnvelopeHandle.Drag c evt pProject s
        = Except.ok
            (if forwardChanged c s.trace s.handle primary evt.event pProject.viewInfo
               then RefreshCode.RefreshCell else RefreshCode.RefreshNone,
             { s with trace := s.trace
                 ++ forwardEffects s.handle primary evt.event pProject.viewInfo })
    ∧ (∀ right, s.handle.mEnvelopeEditorRight = some right →
        forwardEffects s.handle primary evt.event pProject.viewInfo
          = [Effect.MouseEvent (forwardedTo s.handle primary evt.event pProject.viewInfo),
             Effect.MouseEvent (forwardedTo s.handle right evt.event pProject.viewInfo)])
    ∧ (s.handle.mEnvelopeEditorRight = none →
        forwardEffects s.handle primary evt.event pProject.viewInfo
          = [Effect.MouseEvent (forwardedTo s.handle primary evt.event pProject.viewInfo)])
    ∧ (∀ call ∈ forwardedCalls
          (forwardEffects s.handle primary evt.event pProject.viewInfo),
        UsesSnapshot s.handle call ∧ call.event = evt.event)
    ∧ (∀ s0 sPrep, EnvelopeHandle.ClickPrepare c evt pProject s0 = some sPrep →
        (∃ editor, sPrep.handle.mEnvelopeEditor = some editor)
        ∧ EnvelopeHandle.Click c evt pProject s0
          = EnvelopeHandle.Drag c evt pProject
              { sPrep with handle := { sPrep.handle with mRect := evt.rect } }) := by
  refine ⟨Drag_eq c evt pProject s primary haudio hprim, ?_, ?_, ?_, ?_⟩
  · intro right hr
    simp [forwardEffects, hr]
  · intro hr
    simp [forwardEffects, hr]
  · intro call hmem
    exact forwardedCalls_forwardEffects s.handle primary evt.event pProject.viewInfo call hmem
  · intro s0 sPrep hprep
    exact ⟨ClickPrepare_editor c evt pProject s0 sPrep hprep,
      Click_eq_Drag c evt pProject s0 sPrep haudio hprep⟩

/-- When the rejection condition fails, audio is inactive and the dispatch of
`Click` on the track kind succeeds. -/
theorem ClickRejects_false (c : Collaborators) (evt : TrackPanelMouseEvent)
    (pProject : Project) (s : State) (hrej : ClickRejects evt pProject = false) :
    pProject.IsAudioActive = false
      ∧ ∃ sPrep, EnvelopeHandle.ClickPrepare c evt pProject s = some sPrep := by
  have haudio : pProject.IsAudioActive = false := by
    cases h : pProject.IsAudioActive with
    | false => rfl
    | true => simp [ClickRejects, h] at hrej
  refine ⟨haudio, ?_⟩
  cases hprep : EnvelopeHandle.ClickPrepare c evt pProject s with
  | none =>
    have := (ClickPrepare_eq_none_iff c evt pProject s haudio).mp hprep
    rw [hrej] at this
    cases this
  | some sPrep => exact ⟨sPrep, rfl⟩

/-- An accepted `Click` returns without the `Cancelled` flag; the handle is
the prepared one with `mRect` set and the trace gains the forwarded calls. -/
theorem Click_accepted (c : Collaborators) (evt : TrackPanelMouseEvent)
    (pProject : Project) (s sPrep : State) (haudio : pProject.IsAudioActive = false)
    (hprep : EnvelopeHandle.ClickPrepare c evt pProject s = some sPrep) :
    ∃ r primary, sPrep.handle.mEnvelopeEditor = some primary
      ∧ (r = RefreshCode.RefreshCell ∨ r = RefreshCode.RefreshNone)
      ∧ EnvelopeHandle.Click c evt pProject s
        = Except.ok (r,
            { handle := { sPrep.handle with mRect := evt.rect }
              trace := sPrep.trace
                ++ forwardEffects { sPrep.handle with mRect := evt.rect } primary
                    evt.event pProject.viewInfo }) := by
  obtain ⟨primary, hprim⟩ := ClickPrepare_editor c evt pProject s sPrep hprep
  have hd := Drag_eq c evt pProject
    { sPrep with handle := { sPrep.handle with mRect := evt.rect } } primary haudio hprim
  rw [← Click_eq_Drag c evt pProject s sPrep haudio hprep] at hd
  refine ⟨if forwardChanged c sPrep.trace { sPrep.handle with mRect := evt.rect } primary
      evt.event pProject.viewInfo then RefreshCode.RefreshCell else RefreshCode.RefreshNone,
    primary, hprim, ?_, hd⟩
  split_ifs
  · exact Or.inl rfl
  · exact Or.inr rfl

/-- The dispatch of `Click` on a wave track: the envelope under the event's
X exists, the display is waveform, and the editors and bounds it stores. -/
theorem ClickPrepare_wave (c : Collaborators) (evt : TrackPanelMouseEvent)
    (pProject : Project) (s sPrep : State) (wt : WaveTrack)
    (hcell : evt.pCell = Track.Wave wt)
    (h : EnvelopeHandle.ClickPrepare c evt pProject s = some sPrep) :
    ∃ envelope, wt.GetEnvelopeAtX evt.event.m_x = some envelope
      ∧ wt.GetDisplay = Display.Waveform
      ∧ sPrep.handle.mEnvelopeEditor = some { envelope := envelope, mirrored := true }
      ∧ sPrep.handle.mEnvelopeEditorRight
        = (wt.GetLink.bind (fun partner => partner.GetEnvelopeAtX evt.event.m_x)).map
            (fun e => { envelope := e, mirrored := true }) := by
  unfold EnvelopeHandle.ClickPrepare at h
  rw [hcell] at h
  cases hd : wt.GetDisplay <;> cases he : wt.GetEnvelopeAtX evt.event.m_x <;>
    cases hl : wt.GetLink <;> simp [hd, he, hl] at h
  · subst h
    exact ⟨_, rfl, rfl, rfl, rfl⟩
  · rename_i envelope partner
    cases hp : partner.GetEnvelopeAtX evt.event.m_x <;> simp [hp] at h <;>
      (subst h; exact ⟨_, rfl, rfl, rfl, by simp [hp]⟩)

/-- The dispatch of `Click` on a time track: the envelope exists, the primary
editor is bound to it and the right editor is reset. -/
theorem ClickPrepare_time (c : Collaborators) (evt : TrackPanelMouseEvent)
    (pProject : Project) (s sPrep : State) (tt : TimeTrack)
    (hcell : evt.pCell = Track.Time tt)
    (h : EnvelopeHandle.ClickPrepare c evt pProject s = some sPrep) :
    ∃ envelope, tt.GetEnvelope = some envelope
      ∧ sPrep.handle.mEnvelopeEditor = some { envelope := envelope, mirrored := false }
      ∧ sPrep.handle.mEnvelopeEditorRight = none := by
  unfold EnvelopeHandle.ClickPrepare at h
  rw [hcell] at h
  cases he : tt.GetEnvelope <;> simp [he] at h
  subst h
  exact ⟨_, rfl, rfl, rfl⟩

/-- C16: after a successful `Click` on a wave track the primary editor is
bound to the envelope under the event's X and the right editor is non-null
exactly when the track has a link partner with an envelope under the same X
(it is then bound to that envelope); on a time track the right editor is
null. An editor left in the handle before the click plays no part. -/
theorem Click_editors (c : Collaborators) (evt : TrackPanelMouseEvent)
    (pProject : Project) (s : State) (hrej : ClickRejects evt pProject = false) :
    ∃ r s1, EnvelopeHandle.Click c evt pProject s = Except.ok (r, s1)
      ∧ r ≠ RefreshCode.Cancelled
      ∧ match evt.pCell with
        | Track.Wave wt =>
          (∃ envelope, wt.GetEnvelopeAtX evt.event.m_x = some envelope
            ∧ s1.handle.mEnvelopeEditor = some { envelope := envelope, mirrored := true })
          ∧ s1.handle.mEnvelopeEditorRight
            = (wt.GetLink.bind (fun partner => partner.GetEnvelopeAtX evt.event.m_x)).map
                (fun e => { envelope := e, mirrored := true })
          ∧ (s1.handle.mEnvelopeEditorRight ≠ none
            ↔ ∃ partner e, wt.GetLink = some partner
                ∧ partner.GetEnvelopeAtX evt.event.m_x = some e)
        | Track.Time tt =>
          (∃ envelope, tt.GetEnvelope = some envelope
            ∧ s1.handle.mEnvelopeEditor = some { envelope := envelope, mirrored := false })
          ∧ s1.handle.mEnvelopeEditorRight = none
        | Track.Other _ => False := by
  obtain ⟨haudio, sPrep, hprep⟩ := ClickRejects_false c evt pProject s hrej
  obtain ⟨r, primary, hprim, hr, hclick⟩ := Click_accepted c evt pProject s sPrep haudio hprep
  refine ⟨r, _, hclick, ?_, ?_⟩
  · rcases hr with hr | hr <;> rw [hr] <;> decide
  · cases hcell : evt.pCell with
    | Wave wt =>
      obtain ⟨envelope, he, -, hp, hright⟩ := ClickPrepare_wave c evt pProject s sPrep wt hcell hprep
      refine ⟨⟨envelope, he, hp⟩, hright, ?_⟩
      show sPrep.handle.mEnvelopeEditorRight ≠ none ↔ _
      rw [hright]
      cases hl : wt.GetLink with
      | none => simp
      | some partner =>
        cases hpe : partner.GetEnvelopeAtX evt.event.m_x <;> simp [hpe]
    | Time tt =>
      obtain ⟨envelope, he, hp, hright⟩ := ClickPrepare_time c evt pProject s sPrep tt hcell hprep
      exact ⟨⟨envelope, he, hp⟩, hright⟩
    | Other kind =>
      simp [EnvelopeHandle.ClickPrepare, hcell] at hprep

/-- Witness of C16: a click on a mono track with a handle that still holds
a right editor from an earlier gesture; afterwards the right editor is null. -/
theorem Click_editors_witness :
    ∃ r s1, EnvelopeHandle.Click demoCollaborators
          (demoEvent (Track.Wave demoTrack) 2 false) demoProject busyState
          = Except.ok (r, s1)
      ∧ r ≠ RefreshCode.Cancelled
      ∧ (∃ envelope, demoTrack.GetEnvelopeAtX 10 = some envelope
          ∧ s1.handle.mEnvelopeEditor = some { envelope := envelope, mirrored := true })
      ∧ s1.handle.mEnvelopeEditorRight = none := by
  obtain ⟨r, s1, h, hr, hp, hright, -⟩ := Click_editors demoCollaborators
    (demoEvent (Track.Wave demoTrack) 2 false) demoProject busyState rfl
  exact ⟨r, s1, h, hr, hp, hright⟩

/-- Every handle has its own snapshot. -/
theorem SameSnapshot_refl (h : EnvelopeHandle) : SameSnapshot h h :=
  ⟨rfl, rfl, rfl, rfl, rfl⟩

/-- Keeping the snapshot is transitive. -/
theorem SameSnapshot_trans (h h1 h2 : EnvelopeHandle) (h01 : SameSnapshot h h1)
    (h12 : SameSnapshot h1 h2) : SameSnapshot h h2 :=
  ⟨h12.1.trans h01.1, h12.2.1.trans h01.2.1, h12.2.2.1.trans h01.2.2.1,
    h12.2.2.2.1.trans h01.2.2.2.1, h12.2.2.2.2.trans h01.2.2.2.2⟩

/-- A call that carries the snapshot of `h1` carries that of `h` when the two
handles have the same snapshot. -/
theorem UsesSnapshot_of_same (h h1 : EnvelopeHandle) (call : Forwarded)
    (hs : SameSnapshot h h1) (hu : UsesSnapshot h1 call) : UsesSnapshot h call :=
  ⟨hu.1.trans hs.2.2.2.2, hu.2.1.trans hs.1, hu.2.2.1.trans hs.2.2.2.1,
    hu.2.2.2.1.trans hs.2.1, hu.2.2.2.2.trans hs.2.2.1⟩

/-- The function `Cancel` keeps the snapshot fields. -/
theorem Cancel_snapshot (s : State) : SameSnapshot s.handle (EnvelopeHandle.Cancel s).2.handle :=
  ⟨rfl, rfl, rfl, rfl, rfl⟩

/-- Whenever `ForwardEventToEnvelopes` returns, the handle is unchanged. -/
theorem ForwardEventToEnvelopes_handle (c : Collaborators) (event : MouseEvent)
    (viewInfo : ViewInfo) (s s1 : State) (b : Bool)
    (h : EnvelopeHandle.ForwardEventToEnvelopes c event viewInfo s = Except.ok (b, s1)) :
    s1.handle = s.handle := by
  cases hp : s.handle.mEnvelopeEditor with
  | none => simp [EnvelopeHandle.ForwardEventToEnvelopes, hp] at h
  | some primary =>
    rw [ForwardEventToEnvelopes_eq c event viewInfo s primary hp] at h
    have := congrArg Prod.snd (Except.ok.inj h)
    simp only at this
    rw [← this]

/-- With audio inactive and a primary editor in place, `Release` forwards the
event, pushes one state and releases both editors. -/
theorem Release_eq (c : Collaborators) (evt : TrackPanelMouseEvent) (pProject : Project)
    (s : State) (primary : EnvelopeEditor) (haudio : pProject.IsAudioActive = false)
    (hprim : s.handle.mEnvelopeEditor = some primary) :
    EnvelopeHandle.Release c evt pProject s
      = Except.ok
          (if forwardChanged c s.trace s.handle primary evt.event pProject.viewInfo
             then RefreshCode.RefreshCell else RefreshCode.RefreshNone,
           { handle := { s.handle with mEnvelopeEditor := none, mEnvelopeEditorRight := none }
             trace := s.trace
               ++ forwardEffects s.handle primary evt.event pProject.viewInfo
               ++ [Effect.PushState "Adjusted envelope." "Envelope"] }) := by
  simp only [EnvelopeHandle.Release, haudio,
    ForwardEventToEnvelopes_eq c evt.event pProject.viewInfo s primary hprim]
  simp

/-- Each single call keeps the snapshot fields whenever it returns. -/
theorem step_snapshot (c : Collaborators) (call : Call) (s s1 : State) (r : Result)
    (h : step c call s = Except.ok (r, s1)) : SameSnapshot s.handle s1.handle := by
  cases call with
  | Drag evt pProject =>
    simp only [step, EnvelopeHandle.Drag] at h
    cases haudio : pProject.IsAudioActive with
    | true =>
      simp only [haudio, if_true] at h
      have := congrArg Prod.snd (Except.ok.inj h)
      simp only at this
      rw [← this]
      exact Cancel_snapshot s
    | false =>
      simp only [haudio] at h
      cases hf : EnvelopeHandle.ForwardEventToEnvelopes c evt.event pProject.viewInfo s with
      | error f => simp [hf] at h
      | ok res =>
        obtain ⟨b, s2⟩ := res
        simp only [hf] at h
        have := congrArg Prod.snd (Except.ok.inj h)
        simp only at this
        rw [← this, ForwardEventToEnvelopes_handle c _ _ s s2 b hf]
        exact SameSnapshot_refl _
  | Release evt pProject =>
    simp only [step, EnvelopeHandle.Release] at h
    cases haudio : pProject.IsAudioActive with
    | true =>
      simp only [haudio, if_true] at h
      have hs : (EnvelopeHandle.Cancel s).2 = s1 := congrArg Prod.snd (Except.ok.inj h)
      rw [← hs]
      exact Cancel_snapshot s
    | false =>
      simp only [haudio] at h
      cases hf : EnvelopeHandle.ForwardEventToEnvelopes c evt.event pProject.viewInfo s with
      | error f => simp [hf] at h
      | ok res =>
        obtain ⟨b, s2⟩ := res
        simp only [hf] at h
        have := congrArg Prod.snd (Except.ok.inj h)
        simp only at this
        rw [← this]
        have hh := ForwardEventToEnvelopes_handle c _ _ s s2 b hf
        exact ⟨by simp [hh], by simp [hh], by simp [hh], by simp [hh], by simp [hh]⟩
  | Cancel =>
    simp only [step] at h
    have hs : (EnvelopeHandle.Cancel s).2 = s1 := congrArg Prod.snd (Except.ok.inj h)
    rw [← hs]
    exact Cancel_snapshot s

/-- A run of `Cancel` calls always returns, keeps the snapshot and forwards
nothing. -/
theorem run_onlyCancels (c : Collaborators) (calls : List Call) (s : State)
    (h : OnlyCancels calls = true) :
    ∃ s1, run c calls s = Except.ok s1 ∧ SameSnapshot s.handle s1.handle
      ∧ ∃ added, s1.trace = s.trace ++ added ∧ forwardedCalls added = [] := by
  induction calls generalizing s with
  | nil => exact ⟨s, rfl, SameSnapshot_refl _, [], by simp, rfl⟩
  | cons call rest ih =>
    cases call with
    | Drag evt pProject => simp [OnlyCancels] at h
    | Release evt pProject => simp [OnlyCancels] at h
    | Cancel =>
      simp only [OnlyCancels] at h
      obtain ⟨s1, hrun, hsnap, added, htrace, hfw⟩ := ih (EnvelopeHandle.Cancel s).2 h
      refine ⟨s1, ?_, SameSnapshot_trans _ _ _ (Cancel_snapshot s) hsnap,
        Effect.RollbackState :: added, ?_, ?_⟩
      · simp only [run, step]
        exact hrun
      · rw [htrace]
        simp [EnvelopeHandle.Cancel]
      · simpa [forwardedCalls] using hfw

/-- The dispatch of `Click` only adds editor constructions to the trace. -/
theorem ClickPrepare_trace (c : Collaborators) (evt : TrackPanelMouseEvent)
    (pProject : Project) (s sPrep : State)
    (h : EnvelopeHandle.ClickPrepare c evt pProject s = some sPrep) :
    ∃ added, sPrep.trace = s.trace ++ added ∧ forwardedCalls added = []
      ∧ pushStates added = [] ∧ rollbacks added = 0 := by
  unfold EnvelopeHandle.ClickPrepare at h
  cases hcell : evt.pCell with
  | Wave wt =>
    rw [hcell] at h
    cases hd : wt.GetDisplay <;> cases he : wt.GetEnvelopeAtX evt.event.m_x <;>
      cases hl : wt.GetLink <;> simp [hd, he, hl] at h
    · subst h
      exact ⟨[Effect.Construct _], rfl, rfl, rfl, rfl⟩
    · rename_i envelope partner
      cases hp : partner.GetEnvelopeAtX evt.event.m_x with
      | none =>
        simp [hp] at h
        subst h
        exact ⟨[Effect.Construct _], rfl, rfl, rfl, rfl⟩
      | some partnerEnv =>
        simp [hp] at h
        subst h
        exact ⟨[Effect.Construct { envelope := envelope, mirrored := true },
          Effect.Construct { envelope := partnerEnv, mirrored := true }],
          by simp, rfl, rfl, rfl⟩
  | Time tt =>
    rw [hcell] at h
    cases he : tt.GetEnvelope <;> simp [he] at h
    subst h
    exact ⟨[Effect.Construct _], rfl, rfl, rfl, rfl⟩
  | Other kind =>
    rw [hcell] at h
    simp at h

/-- A `Click` that does not return `Cancelled` leaves a primary editor in the
handle; the calls it made contain no `PushState` and no `RollbackState`, and
every event it forwarded carries the snapshot now stored in the handle. -/
theorem Click_success (c : Collaborators) (evt : TrackPanelMouseEvent)
    (pProject : Project) (s s1 : State) (r : Result)
    (hclick : EnvelopeHandle.Click c evt pProject s = Except.ok (r, s1))
    (hok : r ≠ RefreshCode.Cancelled) :
    pProject.IsAudioActive = false
      ∧ ∃ primary added, s1.handle.mEnvelopeEditor = some primary
        ∧ s1.trace = s.trace ++ added ∧ pushStates added = [] ∧ rollbacks added = 0
        ∧ ∀ call ∈ forwardedCalls added, UsesSnapshot s1.handle call := by
  cases haudio : pProject.IsAudioActive with
  | true =>
    simp only [EnvelopeHandle.Click, haudio, if_true] at hclick
    exact absurd (congrArg Prod.fst (Except.ok.inj hclick)).symm hok
  | false =>
    refine ⟨rfl, ?_⟩
    cases hprep : EnvelopeHandle.ClickPrepare c evt pProject s with
    | none =>
      simp only [EnvelopeHandle.Click, haudio, hprep] at hclick
      simp only [Bool.false_eq_true, if_false] at hclick
      exact absurd (congrArg Prod.fst (Except.ok.inj hclick)).symm hok
    | some sPrep =>
      obtain ⟨r1, primary, hprim, -, heq⟩ := Click_accepted c evt pProject s sPrep haudio hprep
      obtain ⟨added, htrace, hfw, hpush, hroll⟩ := ClickPrepare_trace c evt pProject s sPrep hprep
      rw [heq] at hclick
      have hs1 := congrArg Prod.snd (Except.ok.inj hclick)
      simp only at hs1
      subst hs1
      refine ⟨primary, added ++ forwardEffects { sPrep.handle with mRect := evt.rect } primary
        evt.event pProject.viewInfo, hprim, ?_, ?_, ?_, ?_⟩
      · simp [htrace]
      · rw [pushStates_append, hpush, pushStates_forwardEffects]; rfl
      · rw [rollbacks_append, hroll, rollbacks_forwardEffects]
      · intro call hmem
        rw [forwardedCalls_append, hfw, List.nil_append] at hmem
        exact (forwardedCalls_forwardEffects _ primary evt.event pProject.viewInfo call hmem).1

/-- Under the dispatch discipline, starting with a primary editor in place,
every call returns: the run ends without fault, keeps the snapshot, and each
event it forwards carries that snapshot. -/
theorem run_disciplined (c : Collaborators) (calls : List Call) (s : State)
    (primary : EnvelopeEditor) (hprim : s.handle.mEnvelopeEditor = some primary)
    (hdisc : Disciplined c calls s = true) :
    ∃ s1, run c calls s = Except.ok s1 ∧ SameSnapshot s.handle s1.handle
      ∧ ∃ added, s1.trace = s.trace ++ added
        ∧ ∀ call ∈ forwardedCalls added, UsesSnapshot s.handle call := by
  induction calls generalizing s with
  | nil => exact ⟨s, rfl, SameSnapshot_refl _, [], by simp, by simp [forwardedCalls]⟩
  | cons call rest ih =>
    cases call with
    | Cancel =>
      simp only [Disciplined] at hdisc
      obtain ⟨s1, hrun, hsnap, added, htrace, hfw⟩ :=
        run_onlyCancels c rest (EnvelopeHandle.Cancel s).2 hdisc
      refine ⟨s1, ?_, SameSnapshot_trans _ _ _ (Cancel_snapshot s) hsnap,
        Effect.RollbackState :: added, ?_, ?_⟩
      · simp only [run, step]
        exact hrun
      · rw [htrace]
        simp [EnvelopeHandle.Cancel]
      · intro call hmem
        simp [forwardedCalls, hfw] at hmem
    | Release evt pProject =>
      simp only [Disciplined] at hdisc
      cases haudio : pProject.IsAudioActive with
      | true =>
        obtain ⟨s1, hrun, hsnap, added, htrace, hfw⟩ :=
          run_onlyCancels c rest (EnvelopeHandle.Cancel s).2 hdisc
        refine ⟨s1, ?_, SameSnapshot_trans _ _ _ (Cancel_snapshot s) hsnap,
          Effect.RollbackState :: added, ?_, ?_⟩
        · simp only [run, step, EnvelopeHandle.Release, haudio, if_true]
          exact hrun
        · rw [htrace]
          simp [EnvelopeHandle.Cancel]
        · intro call hmem
          simp [forwardedCalls, hfw] at hmem
      | false =>
        have hrel := Release_eq c evt pProject s primary haudio hprim
        obtain ⟨s1, hrun, hsnap, added, htrace, hfw⟩ :=
          run_onlyCancels c rest
            { handle := { s.handle with mEnvelopeEditor := none, mEnvelopeEditorRight := none }
              trace := s.trace
                ++ forwardEffects s.handle primary evt.event pProject.viewInfo
                ++ [Effect.PushState "Adjusted envelope." "Envelope"] } hdisc
        refine ⟨s1, ?_, SameSnapshot_trans _ _ _ ⟨rfl, rfl, rfl, rfl, rfl⟩ hsnap,
          forwardEffects s.handle primary evt.event pProject.viewInfo
            ++ [Effect.PushState "Adjusted envelope." "Envelope"] ++ added, ?_, ?_⟩
        · simp only [run, step, hrel]
          exact hrun
        · rw [htrace]
          simp
        · intro call hmem
          rw [forwardedCalls_append, forwardedCalls_append, hfw] at hmem
          simp only [forwardedCalls, List.append_nil] at hmem
          exact (forwardedCalls_forwardEffects s.handle primary evt.event pProject.viewInfo
            call hmem).1
    | Drag evt pProject =>
      cases haudio : pProject.IsAudioActive with
      | true =>
        have hdrag : EnvelopeHandle.Drag c evt pProject s
            = Except.ok (RefreshCode.or RefreshCode.RefreshCell RefreshCode.Cancelled,
                (EnvelopeHandle.Cancel s).2) := by
          simp [EnvelopeHandle.Drag, haudio]
        simp only [Disciplined, hdrag] at hdisc
        have hdisc2 : OnlyCancels rest = true := by
          simpa [RefreshCode.or, RefreshCode.Cancelled, RefreshCode.RefreshCell] using hdisc
        obtain ⟨s1, hrun, hsnap, added, htrace, hfw⟩ :=
          run_onlyCancels c rest (EnvelopeHandle.Cancel s).2 hdisc2
        refine ⟨s1, ?_, SameSnapshot_trans _ _ _ (Cancel_snapshot s) hsnap,
          Effect.RollbackState :: added, ?_, ?_⟩
        · simp only [run, step, hdrag]
          exact hrun
        · rw [htrace]
          simp [EnvelopeHandle.Cancel]
        · intro call hmem
          simp [forwardedCalls, hfw] at hmem
      | false =>
        have hdrag := Drag_eq c evt pProject s primary haudio hprim
        simp only [Disciplined, hdrag] at hdisc
        have hdisc2 : Disciplined c rest
            { s with trace := s.trace
                ++ forwardEffects s.handle primary evt.event pProject.viewInfo } = true := by
          cases hfc : forwardChanged c s.trace s.handle primary evt.event pProject.viewInfo
          all_goals
            simpa [hfc, RefreshCode.RefreshCell, RefreshCode.RefreshNone] using hdisc
        obtain ⟨s1, hrun, hsnap, added, htrace, hfw⟩ :=
          ih { s with trace := s.trace
                ++ forwardEffects s.handle primary evt.event pProject.viewInfo } hprim hdisc2
        refine ⟨s1, ?_, hsnap,
          forwardEffects s.handle primary evt.event pProject.viewInfo ++ added, ?_, ?_⟩
        · simp only [run, step, hdrag]
          exact hrun
        · rw [htrace]
          simp
        · intro call hmem
          rw [forwardedCalls_append, List.mem_append] at hmem
          rcases hmem with hmem | hmem
          · exact (forwardedCalls_forwardEffects s.handle primary evt.event pProject.viewInfo
              call hmem).1
          · exact hfw call hmem

/-- The dispatch of `Click` stores the bounds of the track; with `mRect` set
the handle holds what `Click` is expected to capture. -/
theorem ClickPrepare_bounds (c : Collaborators) (evt : TrackPanelMouseEvent)
    (pProject : Project) (s sPrep : State)
    (h : EnvelopeHandle.ClickPrepare c evt pProject s = some sPrep) :
    CapturedByClick c evt pProject { sPrep.handle with mRect := evt.rect } := by
  unfold EnvelopeHandle.ClickPrepare at h
  cases hcell : evt.pCell with
  | Wave wt =>
    rw [hcell] at h
    cases hd : wt.GetDisplay <;> cases he : wt.GetEnvelopeAtX evt.event.m_x <;>
      cases hl : wt.GetLink <;> simp [hd, he, hl] at h
    · subst h
      simp [CapturedByClick, hcell]
    · rename_i envelope partner
      cases hp : partner.GetEnvelopeAtX evt.event.m_x with
      | none =>
        simp [hp] at h
        subst h
        simp [CapturedByClick, hcell]
      | some partnerEnv =>
        simp [hp] at h
        subst h
        simp [CapturedByClick, hcell]
  | Time tt =>
    rw [hcell] at h
    cases he : tt.GetEnvelope <;> simp [he] at h
    subst h
    simp [CapturedByClick, hcell]
  | Other kind =>
    rw [hcell] at h
    simp at h

/-- A `Click` that does not return `Cancelled` leaves in the handle the
rectangle of its event and the bounds of its track, and the editor calls it
added to the trace are those of forwarding its event with that handle. -/
theorem Click_captured (c : Collaborators) (evt : TrackPanelMouseEvent)
    (pProject : Project) (s s1 : State) (r : Result)
    (hclick : EnvelopeHandle.Click c evt pProject s = Except.ok (r, s1))
    (hok : r ≠ RefreshCode.Cancelled) :
    CapturedByClick c evt pProject s1.handle
      ∧ ∃ primary, s1.handle.mEnvelopeEditor = some primary
        ∧ forwardedCalls s1.trace
          = forwardedCalls s.trace
            ++ forwardedCalls (forwardEffects s1.handle primary evt.event pProject.viewInfo) := by
  cases haudio : pProject.IsAudioActive with
  | true =>
    simp only [EnvelopeHandle.Click, haudio, if_true] at hclick
    exact absurd (congrArg Prod.fst (Except.ok.inj hclick)).symm hok
  | false =>
    cases hprep : EnvelopeHandle.ClickPrepare c evt pProject s with
    | none =>
      simp only [EnvelopeHandle.Click, haudio, hprep] at hclick
      simp only [Bool.false_eq_true, if_false] at hclick
      exact absurd (congrArg Prod.fst (Except.ok.inj hclick)).symm hok
    | some sPrep =>
      obtain ⟨r1, primary, hprim, -, heq⟩ := Click_accepted c evt pProject s sPrep haudio hprep
      obtain ⟨added, htrace, hfw, -, -⟩ := ClickPrepare_trace c evt pProject s sPrep hprep
      rw [heq] at hclick
      have hs1 := congrArg Prod.snd (Except.ok.inj hclick)
      simp only at hs1
      subst hs1
      refine ⟨ClickPrepare_bounds c evt pProject s sPrep hprep, primary, hprim, ?_⟩
      show forwardedCalls (sPrep.trace ++ _) = _
      rw [forwardedCalls_append, htrace, forwardedCalls_append, hfw, List.append_nil]

/-- After `Cancel` calls alone no editor call is expected. -/
theorem gestureForwards_onlyCancels (h : EnvelopeHandle) (primary : EnvelopeEditor)
    (calls : List Call) (hc : OnlyCancels calls = true) :
    gestureForwards h primary calls = [] := by
  cases calls with
  | nil => rfl
  | cons call rest =>
    cases call with
    | Drag evt pProject => simp [OnlyCancels] at hc
    | Release evt pProject => simp [OnlyCancels] at hc
    | Cancel => rfl

/-- Under the dispatch discipline, starting with a primary editor in place,
the editor calls of the run are exactly the expected ones: every drag and the
release delivered with audio inactive forward their event with the handle's
rectangle and bounds. -/
theorem run_disciplined_forwards (c : Collaborators) (calls : List Call) (s : State)
    (primary : EnvelopeEditor) (hprim : s.handle.mEnvelopeEditor = some primary)
    (hdisc : Disciplined c calls s = true) :
    ∃ s1, run c calls s = Except.ok s1
      ∧ forwardedCalls s1.trace
        = forwardedCalls s.trace ++ gestureForwards s.handle primary calls := by
  induction calls generalizing s with
  | nil => exact ⟨s, rfl, by simp [gestureForwards]⟩
  | cons call rest ih =>
    cases call with
    | Cancel =>
      simp only [Disciplined] at hdisc
      obtain ⟨s1, hrun, -, added, htrace, hfw⟩ :=
        run_onlyCancels c rest (EnvelopeHandle.Cancel s).2 hdisc
      refine ⟨s1, ?_, ?_⟩
      · simp only [run, step]
        exact hrun
      · rw [htrace, forwardedCalls_append, hfw]
        simp [EnvelopeHandle.Cancel, forwardedCalls_append, forwardedCalls, gestureForwards]
    | Release evt pProject =>
      simp only [Disciplined] at hdisc
      cases haudio : pProject.IsAudioActive with
      | true =>
        obtain ⟨s1, hrun, -, added, htrace, hfw⟩ :=
          run_onlyCancels c rest (EnvelopeHandle.Cancel s).2 hdisc
        refine ⟨s1, ?_, ?_⟩
        · simp only [run, step, EnvelopeHandle.Release, haudio, if_true]
          exact hrun
        · rw [htrace, forwardedCalls_append, hfw]
          simp [EnvelopeHandle.Cancel, forwardedCalls_append, forwardedCalls,
            gestureForwards, haudio]
      | false =>
        have hrel := Release_eq c evt pProject s primary haudio hprim
        obtain ⟨s1, hrun, -, added, htrace, hfw⟩ :=
          run_onlyCancels c rest
            { handle := { s.handle with mEnvelopeEditor := none, mEnvelopeEditorRight := none }
              trace := s.trace
                ++ forwardEffects s.handle primary evt.event pProject.viewInfo
                ++ [Effect.PushState "Adjusted envelope." "Envelope"] } hdisc
        refine ⟨s1, ?_, ?_⟩
        · simp only [run, step, hrel]
          exact hrun
        · rw [htrace, forwardedCalls_append, hfw, forwardedCalls_append,
            forwardedCalls_append]
          simp [forwardedCalls, gestureForwards, haudio]
    | Drag evt pProject =>
      cases haudio : pProject.IsAudioActive with
      | true =>
        have hdrag : EnvelopeHandle.Drag c evt pProject s
            = Except.ok (RefreshCode.or RefreshCode.RefreshCell RefreshCode.Cancelled,
                (EnvelopeHandle.Cancel s).2) := by
          simp [EnvelopeHandle.Drag, haudio]
        simp only [Disciplined, hdrag] at hdisc
        have hdisc2 : OnlyCancels rest = true := by
          simpa [RefreshCode.or, RefreshCode.Cancelled, RefreshCode.RefreshCell] using hdisc
        obtain ⟨s1, hrun, -, added, htrace, hfw⟩ :=
          run_onlyCancels c rest (EnvelopeHandle.Cancel s).2 hdisc2
        refine ⟨s1, ?_, ?_⟩
        · simp only [run, step, hdrag]
          exact hrun
        · rw [htrace, forwardedCalls_append, hfw]
          simp [EnvelopeHandle.Cancel, forwardedCalls_append, forwardedCalls,
            gestureForwards, haudio]
      | false =>
        have hdrag := Drag_eq c evt pProject s primary haudio hprim
        simp only [Disciplined, hdrag] at hdisc
        have hdisc2 : Disciplined c rest
            { s with trace := s.trace
                ++ forwardEffects s.handle primary evt.event pProject.viewInfo } = true := by
          cases hfc : forwardChanged c s.trace s.handle primary evt.event pProject.viewInfo
          all_goals
            simpa [hfc, RefreshCode.RefreshCell, RefreshCode.RefreshNone] using hdisc
        obtain ⟨s1, hrun, hfw⟩ :=
          ih { s with trace := s.trace
                ++ forwardEffects s.handle primary evt.event pProject.viewInfo } hprim hdisc2
        refine ⟨s1, ?_, ?_⟩
        · simp only [run, step, hdrag]
          exact hrun
        · rw [hfw, forwardedCalls_append]
          simp [gestureForwards, haudio]

/-- C14: `Drag`, `Release` and `Cancel` never modify `mLog`, `mLower`,
`mUpper`, `mdBRange` or `mRect`. Hence in a gesture (a successful `Click`
followed by calls that respect the dispatch discipline) the handle keeps the
rectangle of the click's event and the bounds `Click` took from the track,
and the editor calls made are exactly these: the click's event, the event of
each drag and the event of the release are forwarded to the editors, each
with that rectangle and those bounds, whatever tracks, rectangles and
projects the later events come with. -/
theorem gesture_snapshot_frame (c : Collaborators) (evt0 : TrackPanelMouseEvent)
    (p0 : Project) (s0 s1 : State) (r0 : Result) (calls : List Call)
    (hclick : EnvelopeHandle.Click c evt0 p0 s0 = Except.ok (r0, s1))
    (hok : r0 ≠ RefreshCode.Cancelled) (hdisc : Disciplined c calls s1 = true) :
    (∀ call s r s2, step c call s = Except.ok (r, s2) → SameSnapshot s.handle s2.handle)
    ∧ CapturedByClick c evt0 p0 s1.handle
    ∧ ∃ primary s2, s1.handle.mEnvelopeEditor = some primary
      ∧ run c calls s1 = Except.ok s2 ∧ SameSnapshot s1.handle s2.handle
      ∧ CapturedByClick c evt0 p0 s2.handle
      ∧ ∃ added, s2.trace = s0.trace ++ added
        ∧ forwardedCalls added
          = forwardedCalls (forwardEffects s1.handle primary evt0.event p0.viewInfo)
            ++ gestureForwards s1.handle primary calls
        ∧ ∀ call ∈ forwardedCalls added, UsesSnapshot s1.handle call := by
  refine ⟨fun call s r s2 h => step_snapshot c call s s2 r h, ?_⟩
  obtain ⟨-, primary, added0, hprim, htrace0, -, -, hfw0⟩ :=
    Click_success c evt0 p0 s0 s1 r0 hclick hok
  obtain ⟨hcap, primary1, hprim1, hclickfw⟩ := Click_captured c evt0 p0 s0 s1 r0 hclick hok
  have hp : primary1 = primary := Option.some.inj (hprim1.symm.trans hprim)
  subst hp
  obtain ⟨s2, hrun, hsnap, added, htrace, hfw⟩ :=
    run_disciplined c calls s1 primary1 hprim hdisc
  obtain ⟨s3, hrun3, hfw3⟩ := run_disciplined_forwards c calls s1 primary1 hprim hdisc
  have hs : s3 = s2 := Except.ok.inj (hrun3.symm.trans hrun)
  subst hs
  have hcap2 : CapturedByClick c evt0 p0 s3.handle := by
    obtain ⟨h1, h2, h3, h4, h5⟩ := hsnap
    unfold CapturedByClick at hcap ⊢
    rw [h1, h2, h3, h4, h5]
    exact hcap
  refine ⟨hcap, primary1, s3, hprim, hrun, hsnap, hcap2, added0 ++ added, ?_, ?_, ?_⟩
  · rw [htrace, htrace0, List.append_assoc]
  · have h1 : forwardedCalls s3.trace
        = forwardedCalls s0.trace ++ forwardedCalls (added0 ++ added) := by
      rw [htrace, htrace0, List.append_assoc, forwardedCalls_append]
    rw [hfw3, hclickfw, List.append_assoc] at h1
    exact (List.append_cancel_left h1).symm
  · intro call hmem
    rw [forwardedCalls_append, List.mem_append] at hmem
    rcases hmem with hmem | hmem
    · exact hfw0 call hmem
    · exact hfw call hmem

/-- Witness of C14: a click on the stereo track, two drags that arrive with
another track and another rectangle, then a release; the three later events
cause six editor calls (two editors each). -/
theorem gesture_snapshot_frame_witness :
    (gestureForwards clickedState.handle { envelope := demoEnvelope, mirrored := true }
        commitCalls).length = 6
    ∧ CapturedByClick demoCollaborators clickEvent demoProject clickedState.handle
    ∧ ∃ primary s2, clickedState.handle.mEnvelopeEditor = some primary
      ∧ run demoCollaborators commitCalls clickedState = Except.ok s2
      ∧ SameSnapshot clickedState.handle s2.handle
      ∧ CapturedByClick demoCollaborators clickEvent demoProject s2.handle
      ∧ ∃ added, s2.trace = idleState.trace ++ added
        ∧ forwardedCalls added
          = forwardedCalls (forwardEffects clickedState.handle primary clickEvent.event
              demoProject.viewInfo)
            ++ gestureForwards clickedState.handle primary commitCalls
        ∧ ∀ call ∈ forwardedCalls added, UsesSnapshot clickedState.handle call :=
  ⟨rfl,
   (gesture_snapshot_frame demoCollaborators clickEvent demoProject idleState clickedState
      RefreshCode.RefreshCell commitCalls rfl (by decide) rfl).2⟩

/-- C18: after a `Click` that does not return `Cancelled`, every sequence of
calls that respects the dispatch discipline runs without fault, so
`ForwardEventToEnvelopes` never meets a null primary editor; without the
discipline, a `Drag` with audio inactive right after a cancelling `Drag`
dereferences the null primary editor. -/
theorem primary_editor_live (c : Collaborators) (evt0 : TrackPanelMouseEvent)
    (p0 : Project) (s0 s1 : State) (r0 : Result) (calls : List Call)
    (hclick : EnvelopeHandle.Click c evt0 p0 s0 = Except.ok (r0, s1))
    (hok : r0 ≠ RefreshCode.Cancelled) (hdisc : Disciplined c calls s1 = true) :
    (s1.handle.mEnvelopeEditor ≠ none ∧ ∃ s2, run c calls s1 = Except.ok s2)
    ∧ (∀ evtA pA evtB pB s, pA.IsAudioActive = true → pB.IsAudioActive = false →
        EnvelopeHandle.Drag c evtA pA s
            = Except.ok (RefreshCode.or RefreshCode.RefreshCell RefreshCode.Cancelled,
                (EnvelopeHandle.Cancel s).2)
          ∧ EnvelopeHandle.Drag c evtB pB (EnvelopeHandle.Cancel s).2
            = Except.error Fault.nullDereference
          ∧ run c [Call.Drag evtA pA, Call.Drag evtB pB] s
            = Except.error Fault.nullDereference) := by
  obtain ⟨-, primary, added0, hprim, -, -, -, -⟩ :=
    Click_success c evt0 p0 s0 s1 r0 hclick hok
  obtain ⟨s2, hrun, -, -⟩ := run_disciplined c calls s1 primary hprim hdisc
  refine ⟨⟨by simp [hprim], s2, hrun⟩, ?_⟩
  intro evtA pA evtB pB s hA hB
  have h1 : EnvelopeHandle.Drag c evtA pA s
      = Except.ok (RefreshCode.or RefreshCode.RefreshCell RefreshCode.Cancelled,
          (EnvelopeHandle.Cancel s).2) := by
    simp [EnvelopeHandle.Drag, hA]
  have h2 : EnvelopeHandle.Drag c evtB pB (EnvelopeHandle.Cancel s).2
      = Except.error Fault.nullDereference := by
    simp [EnvelopeHandle.Drag, hB, EnvelopeHandle.ForwardEventToEnvelopes,
      EnvelopeHandle.Cancel]
  refine ⟨h1, h2, ?_⟩
  simp only [run, step, h1, h2]

/-- Witness of C18: the click on the stereo track, a drag, a drag cancelled
by audio starting, and a final `Cancel`. -/
theorem primary_editor_live_witness :
    clickedState.handle.mEnvelopeEditor ≠ none
    ∧ ∃ s2, run demoCollaborators cancelCalls clickedState = Except.ok s2 :=
  (primary_editor_live demoCollaborators clickEvent demoProject idleState clickedState
    RefreshCode.RefreshCell cancelCalls rfl (by decide) rfl).1

/-- A run of two lists in a row continues from the state the first one ends
in. -/
theorem run_append (c : Collaborators) (a b : List Call) (s s1 : State)
    (h : run c a s = Except.ok s1) : run c (a ++ b) s = run c b s1 := by
  induction a generalizing s with
  | nil =>
    simp only [run] at h
    rw [← Except.ok.inj h]
    rfl
  | cons call rest ih =>
    simp only [run, List.cons_append] at h ⊢
    cases hstep : step c call s with
    | error f => simp [hstep] at h
    | ok res =>
      obtain ⟨r, s2⟩ := res
      simp only [hstep] at h ⊢
      exact ih s2 h

/-- Drags with audio inactive, starting with a primary editor, all return;
the handle is unchanged and no state is pushed or rolled back. -/
theorem run_drags (c : Collaborators) (drags : List (TrackPanelMouseEvent × Project))
    (s : State) (primary : EnvelopeEditor)
    (hprim : s.handle.mEnvelopeEditor = some primary)
    (hdrags : ∀ d ∈ drags, d.2.IsAudioActive = false) :
    ∃ s1, run c (drags.map (fun d => Call.Drag d.1 d.2)) s = Except.ok s1
      ∧ s1.handle = s.handle ∧ pushStates s1.trace = pushStates s.trace
      ∧ rollbacks s1.trace = rollbacks s.trace := by
  induction drags generalizing s with
  | nil => exact ⟨s, rfl, rfl, rfl, rfl⟩
  | cons d rest ih =>
    have haudio : d.2.IsAudioActive = false := hdrags d (List.mem_cons_self _ _)
    have hdrag := Drag_eq c d.1 d.2 s primary haudio hprim
    obtain ⟨s1, hrun, hhandle, hpush, hroll⟩ :=
      ih { s with trace := s.trace ++ forwardEffects s.handle primary d.1.event d.2.viewInfo }
        hprim (fun e he => hdrags e (List.mem_cons_of_mem _ he))
    refine ⟨s1, ?_, hhandle, ?_, ?_⟩
    · simp only [List.map_cons, run, step, hdrag]
      exact hrun
    · rw [hpush, pushStates_append, pushStates_forwardEffects, List.append_nil]
    · rw [hroll, rollbacks_append, rollbacks_forwardEffects, Nat.add_zero]

/-- The last call of one forwarded event is an editor call with that event. -/
theorem forwardEffects_last (h : EnvelopeHandle) (primary : EnvelopeEditor)
    (event : MouseEvent) (viewInfo : ViewInfo) :
    ∃ pre call, forwardEffects h primary event viewInfo = pre ++ [Effect.MouseEvent call]
      ∧ call.event = event := by
  unfold forwardEffects
  cases h.mEnvelopeEditorRight with
  | none => exact ⟨[], _, rfl, rfl⟩
  | some right => exact ⟨[_], _, rfl, rfl⟩

/-- C11: a successful `Click`, any number of `Drag`s and a `Release`, with
audio inactive throughout: `PushState` is called exactly once, by `Release`
right after it forwards the final event, with category "Envelope";
`RollbackState` is never called; afterwards both editors are released. -/
theorem gesture_commit (c : Collaborators) (evt0 : TrackPanelMouseEvent) (p0 : Project)
    (s0 s1 : State) (r0 : Result) (drags : List (TrackPanelMouseEvent × Project))
    (evtR : TrackPanelMouseEvent) (pR : Project)
    (hclick : EnvelopeHandle.Click c evt0 p0 s0 = Except.ok (r0, s1))
    (hok : r0 ≠ RefreshCode.Cancelled)
    (hdrags : ∀ d ∈ drags, d.2.IsAudioActive = false)
    (hrel : pR.IsAudioActive = false) :
    ∃ s2, run c (drags.map (fun d => Call.Drag d.1 d.2) ++ [Call.Release evtR pR]) s1
          = Except.ok s2
      ∧ pushStates s2.trace = pushStates s0.trace ++ [("Adjusted envelope.", "Envelope")]
      ∧ rollbacks s2.trace = rollbacks s0.trace
      ∧ (∃ pre call, s2.trace
            = pre ++ [Effect.MouseEvent call,
                      Effect.PushState "Adjusted envelope." "Envelope"]
          ∧ call.event = evtR.event)
      ∧ s2.handle.mEnvelopeEditor = none
      ∧ s2.handle.mEnvelopeEditorRight = none := by
  obtain ⟨-, primary, added0, hprim, htrace0, hpush0, hroll0, -⟩ :=
    Click_success c evt0 p0 s0 s1 r0 hclick hok
  obtain ⟨sd, hrun, hhandle, hpush, hroll⟩ := run_drags c drags s1 primary hprim hdrags
  have hprimd : sd.handle.mEnvelopeEditor = some primary := by rw [hhandle]; exact hprim
  have hrelease := Release_eq c evtR pR sd primary hrel hprimd
  obtain ⟨pre, call, hlast, hevent⟩ :=
    forwardEffects_last sd.handle primary evtR.event pR.viewInfo
  refine ⟨{ handle := { sd.handle with mEnvelopeEditor := none, mEnvelopeEditorRight := none }
            trace := sd.trace ++ forwardEffects sd.handle primary evtR.event pR.viewInfo
              ++ [Effect.PushState "Adjusted envelope." "Envelope"] },
    ?_, ?_, ?_, ⟨sd.trace ++ pre, call, ?_, hevent⟩, rfl, rfl⟩
  · rw [run_append c _ _ s1 sd hrun]
    simp only [run, step, hrelease]
  · show pushStates (sd.trace ++ forwardEffects sd.handle primary evtR.event pR.viewInfo
        ++ [Effect.PushState "Adjusted envelope." "Envelope"]) = _
    rw [pushStates_append, pushStates_append, pushStates_forwardEffects, hpush, htrace0,
      pushStates_append, hpush0, List.append_nil, List.append_nil]
    rfl
  · show rollbacks (sd.trace ++ forwardEffects sd.handle primary evtR.event pR.viewInfo
        ++ [Effect.PushState "Adjusted envelope." "Envelope"]) = _
    rw [rollbacks_append, rollbacks_append, rollbacks_forwardEffects, hroll, htrace0,
      rollbacks_append, hroll0]
    rfl
  · simp only [hlast, List.append_assoc, List.singleton_append]

/-- Witness of C11: the click on the stereo track, two drags and the release,
all with audio idle. -/
theorem gesture_commit_witness :
    ∃ s2, run demoCollaborators
          ([(demoEvent (Track.Wave stereoTrack) 40 false, demoProject),
            (demoEvent (Track.Wave stereoTrack) 41 false, demoProject)].map
              (fun d => Call.Drag d.1 d.2)
            ++ [Call.Release (demoEvent (Track.Wave stereoTrack) 42 false) demoProject])
          clickedState = Except.ok s2
      ∧ pushStates s2.trace = pushStates idleState.trace ++ [("Adjusted envelope.", "Envelope")]
      ∧ rollbacks s2.trace = rollbacks idleState.trace
      ∧ (∃ pre call, s2.trace
            = pre ++ [Effect.MouseEvent call,
                      Effect.PushState "Adjusted envelope." "Envelope"]
          ∧ call.event = (demoEvent (Track.Wave stereoTrack) 42 false).event)
      ∧ s2.handle.mEnvelopeEditor = none
      ∧ s2.handle.mEnvelopeEditorRight = none :=
  gesture_commit demoCollaborators clickEvent demoProject idleState clickedState
    RefreshCode.RefreshCell
    [(demoEvent (Track.Wave stereoTrack) 40 false, demoProject),
     (demoEvent (Track.Wave stereoTrack) 41 false, demoProject)]
    (demoEvent (Track.Wave stereoTrack) 42 false) demoProject rfl (by decide)
    (by
      intro d hd
      simp only [List.mem_cons, List.mem_singleton, List.not_mem_nil, or_false] at hd
      rcases hd with hd | hd <;> rw [hd] <;> rfl)
    rfl

/-- Whenever `HitEnvelope` returns, the result is empty or is the result of
`HitAnywhere`. -/
theorem HitEnvelope_cases (c : Collaborators) (event : MouseEvent) (rect : Rect)
    (pProject : Project) (envelope : Envelope) (zoomMin zoomMax : ℚ) (dB : Bool)
    (dBRange : ℚ) (r : HitTestResult)
    (h : EnvelopeHandle.HitEnvelope c event rect pProject envelope zoomMin zoomMax dB dBRange
      = Except.ok r) :
    r = {} ∨ r = EnvelopeHandle.HitAnywhere pProject := by
  unfold EnvelopeHandle.HitEnvelope at h
  simp only at h
  split_ifs at h
  · exact Or.inl (Except.ok.inj h).symm
  · exact Or.inl (Except.ok.inj h).symm
  · exact Or.inr (Except.ok.inj h).symm

/-- In the demo setting the envelope hit test hits a click at row 2, on the
envelope line: `yDisplace = 100 - 2 - 98 + 12 = 12`. -/
theorem WaveTrackHitTest_demo_line :
    EnvelopeHandle.WaveTrackHitTest demoCollaborators
      (demoEvent (Track.Wave demoTrack) 2 false).event
      (demoEvent (Track.Wave demoTrack) 2 false).rect demoProject demoTrack
      = Except.ok (EnvelopeHandle.HitAnywhere demoProject) := by
  have h := HitEnvelope_eq demoCollaborators (demoEvent (Track.Wave demoTrack) 2 false).event
    demoRect demoProject demoEnvelope (-2) 2 false 60 100 0 98 100 25 12
    (by simp [demoCollaborators, demoRect])
    (by simp [demoCollaborators, demoRect, demoEnvelope])
    (by simp [demoEvent]) (by simp) ContourSpacing_demo.symm (by decide) (by decide)
  simp only [EnvelopeHandle.WaveTrackHitTest, demoTrack, demoChannel, demoEvent] at h ⊢
  simp only [ne_eq, not_true_eq_false, if_false, Bool.not_true]
  rw [h, if_pos (by decide)]

/-- C17: when `WaveTrackHitTest` returns a result with a non-null handle,
`Click` on the same event, track and project does not return `Cancelled`
(audio is inactive, the display is waveform and an envelope lies under the
event's X). `HitAnywhere` gives no such guarantee: on a track without
envelope it hands out the handle and `Click` returns `Cancelled`. -/
theorem WaveTrackHitTest_implies_Click (c : Collaborators) (event : MouseEvent)
    (rect : Rect) (pProject : Project) (wt : WaveTrack) (s : State) (r : HitTestResult)
    (hhit : EnvelopeHandle.WaveTrackHitTest c event rect pProject wt = Except.ok r)
    (hhandle : r.handle ≠ none) :
    (pProject.IsAudioActive = false ∧ wt.GetDisplay = Display.Waveform
      ∧ wt.GetEnvelopeAtX event.m_x ≠ none
      ∧ ∃ r1 s1, EnvelopeHandle.Click c
            { event := event, rect := rect, pCell := Track.Wave wt } pProject s
            = Except.ok (r1, s1)
          ∧ r1 ≠ RefreshCode.Cancelled)
    ∧ (∃ evt p0 s0, (EnvelopeHandle.HitAnywhere p0).handle ≠ none
        ∧ EnvelopeHandle.Click c evt p0 s0 = Except.ok (RefreshCode.Cancelled, s0)) := by
  constructor
  · unfold EnvelopeHandle.WaveTrackHitTest at hhit
    cases he : wt.GetEnvelopeAtX event.m_x with
    | none =>
      simp only [he] at hhit
      rw [← Except.ok.inj hhit] at hhandle
      exact absurd rfl hhandle
    | some envelope =>
      simp only [he] at hhit
      cases hd : wt.GetDisplay with
      | Spectrum =>
        simp only [hd, ne_eq, reduceCtorEq, not_false_eq_true, if_true] at hhit
        rw [← Except.ok.inj hhit] at hhandle
        exact absurd rfl hhandle
      | Waveform =>
        simp only [hd, ne_eq, not_true_eq_false, if_false] at hhit
        have haudio : pProject.IsAudioActive = false := by
          rcases HitEnvelope_cases c event rect pProject envelope _ _ _ _ r hhit with hr | hr
          · rw [hr] at hhandle
            exact absurd rfl hhandle
          · cases ha : pProject.IsAudioActive with
            | false => rfl
            | true =>
              rw [hr] at hhandle
              simp [EnvelopeHandle.HitAnywhere, ha] at hhandle
        have hrej : ClickRejects { event := event, rect := rect, pCell := Track.Wave wt }
            pProject = false := by
          simp [ClickRejects, haudio, hd, he]
        obtain ⟨-, sPrep, hprep⟩ := ClickRejects_false c _ pProject s hrej
        obtain ⟨r1, primary, -, hr1, hclick⟩ :=
          Click_accepted c _ pProject s sPrep haudio hprep
        refine ⟨haudio, rfl, by simp, r1, _, hclick, ?_⟩
        rcases hr1 with hr1 | hr1 <;> rw [hr1] <;> decide
  · refine ⟨demoEvent (Track.Wave bareTrack) 0 false, demoProject, idleState, by decide, ?_⟩
    simp [EnvelopeHandle.Click, EnvelopeHandle.ClickPrepare, demoProject, demoEvent,
      bareTrack, demoChannel]

/-- Witness of C17: the click at row 2 of the demo track lies on the envelope
line; the hit test hands out the handle and `Click` accepts. -/
theorem WaveTrackHitTest_implies_Click_witness :
    demoProject.IsAudioActive = false ∧ demoTrack.GetDisplay = Display.Waveform
      ∧ demoTrack.GetEnvelopeAtX (demoEvent (Track.Wave demoTrack) 2 false).event.m_x ≠ none
      ∧ ∃ r1 s1, EnvelopeHandle.Click demoCollaborators
            { event := (demoEvent (Track.Wave demoTrack) 2 false).event
              rect := (demoEvent (Track.Wave demoTrack) 2 false).rect
              pCell := Track.Wave demoTrack } demoProject idleState
            = Except.ok (r1, s1)
          ∧ r1 ≠ RefreshCode.Cancelled :=
  (WaveTrackHitTest_implies_Click demoCollaborators
    (demoEvent (Track.Wave demoTrack) 2 false).event
    (demoEvent (Track.Wave demoTrack) 2 false).rect demoProject demoTrack idleState
    (EnvelopeHandle.HitAnywhere demoProject) WaveTrackHitTest_demo_line (by decide)).1

/-- Witness of C15: a drag on a handle that holds two editors; both report a
change, both receive the event, and the result is `RefreshCell`. -/
theorem Drag_forwards_witness :
    EnvelopeHandle.Drag demoCollaborators (demoEvent (Track.Wave demoTrack) 40 false)
        demoProject busyState
      = Except.ok
          (RefreshCode.RefreshCell,
           { busyState with trace :=
               [Effect.MouseEvent (forwardedTo busyHandle
                  { envelope := demoEnvelope, mirrored := true }
                  (demoEvent (Track.Wave demoTrack) 40 false).event demoViewInfo),
                Effect.MouseEvent (forwardedTo busyHandle
                  { envelope := partnerEnvelope, mirrored := true }
                  (demoEvent (Track.Wave demoTrack) 40 false).event demoViewInfo)] }) :=
  (Drag_forwards demoCollaborators (demoEvent (Track.Wave demoTrack) 40 false) demoProject
    busyState { envelope := demoEnvelope, mirrored := true } rfl rfl).1

end Audacity
